import Mathlib

/-!
# STM32 USART driver of the FMT firmware (`driver/usart/usart.c`)

A shallow embedding of the receive index tracker (`dma_uart_rx_idle_isr`,
`dma_rx_done_isr`), the transmit completion tracker (`dma_tx_done_isr`), the
interrupt dispatcher (`uart_isr`) and the channel operations (`usart_configure`,
`usart_control`, `usart_getc`, `usart_dma_transmit`).

The driver runs on a 32-bit target: `rt_size_t` and the event word handed to
`hal_serial_isr` are 32 bits wide, so their arithmetic is taken modulo `2^32`.
The peripheral registers are modelled by the fields the driver touches; every
handler is a function on the machine state that appends the effects it has, in
program order, to `Machine.trace`.
-/

namespace Usart

/-! ## Machine words -/

/-- Number of values of a 32-bit word (`rt_size_t`, `uint32_t`, `int`). -/
def WORD : Nat := 4294967296

/-- Subtraction of two `rt_size_t` values: unsigned, modulo `2^32`. -/
def rt_size_sub (a b : Nat) : Nat := (a + WORD - b % WORD) % WORD

/-- The expression `event | (recv_len << 8)`: the shift and the bitwise or are
carried out on 32-bit unsigned words. -/
def event_word (event recv_len : Nat) : Nat := (event ||| (recv_len <<< 8)) % WORD

/-- The byte count of an event word: the bits above bit 7. -/
def event_count (w : Nat) : Nat := w >>> 8

/-- The event code of an event word: bits 0 to 7. -/
def event_code (w : Nat) : Nat := w &&& 0xff

/-! ## Constants of headers that are not among the sources

`hal/serial.h`, `rtdef.h` and the peripheral library headers define the
constants below; the driver only names them, so they are parameters. -/

/-- The command codes of `rtdef.h` that `usart_control` tells apart in its
`switch`; any other code is `other`. -/
inductive rt_device_ctrl where
  | RT_DEVICE_CTRL_CLR_INT : rt_device_ctrl
  | RT_DEVICE_CTRL_SET_INT : rt_device_ctrl
  | RT_DEVICE_CTRL_CONFIG : rt_device_ctrl
  | RT_DEVICE_CTRL_SUSPEND : rt_device_ctrl
  | other (cmd : Int) : rt_device_ctrl
  deriving Repr, DecidableEq

/-- The named constants the driver uses. -/
structure Consts where
  SERIAL_EVENT_RX_IND : Nat
  SERIAL_EVENT_RX_DMADONE : Nat
  SERIAL_EVENT_TX_DMADONE : Nat
  SERIAL_DMA_TX : Int
  RT_DEVICE_FLAG_INT_RX : Nat
  RT_DEVICE_FLAG_DMA_RX : Nat
  RT_DEVICE_FLAG_DMA_TX : Nat
  RT_EOK : Int
  DATA_BITS_8 : Nat
  DATA_BITS_9 : Nat
  STOP_BITS_1 : Nat
  STOP_BITS_2 : Nat
  PARITY_NONE : Nat
  PARITY_ODD : Nat
  PARITY_EVEN : Nat
  USART_WordLength_8b : Nat
  USART_WordLength_9b : Nat
  USART_StopBits_1 : Nat
  USART_StopBits_2 : Nat
  USART_Parity_No : Nat
  USART_Parity_Odd : Nat
  USART_Parity_Even : Nat
  USART_HardwareFlowControl_None : Nat
  USART_Mode_Rx : Nat
  USART_Mode_Tx : Nat
  deriving Repr, DecidableEq

/-- The values the constants have in the firmware headers. -/
def fmt : Consts where
  SERIAL_EVENT_RX_IND := 0x01
  SERIAL_EVENT_RX_DMADONE := 0x03
  SERIAL_EVENT_TX_DMADONE := 0x04
  SERIAL_DMA_TX := 0x02
  RT_DEVICE_FLAG_INT_RX := 0x100
  RT_DEVICE_FLAG_DMA_RX := 0x200
  RT_DEVICE_FLAG_DMA_TX := 0x800
  RT_EOK := 0
  DATA_BITS_8 := 8
  DATA_BITS_9 := 9
  STOP_BITS_1 := 0
  STOP_BITS_2 := 1
  PARITY_NONE := 0
  PARITY_ODD := 1
  PARITY_EVEN := 2
  USART_WordLength_8b := 0x0000
  USART_WordLength_9b := 0x1000
  USART_StopBits_1 := 0x0000
  USART_StopBits_2 := 0x2000
  USART_Parity_No := 0x0000
  USART_Parity_Odd := 0x0600
  USART_Parity_Even := 0x0400
  USART_HardwareFlowControl_None := 0x0000
  USART_Mode_Rx := 0x0004
  USART_Mode_Tx := 0x0008

/-! ## Data model -/

/-- Arguments of `DMA_Init` the driver sets per transfer. -/
structure DMA_InitTypeDef where
  DMA_Channel : Nat
  DMA_Memory0BaseAddr : Nat
  DMA_BufferSize : Nat
  /-- `true` for `DMA_DIR_MemoryToPeripheral`, `false` for `DMA_DIR_PeripheralToMemory`. -/
  DMA_DIR_MemoryToPeripheral : Bool
  /-- `true` for `DMA_Mode_Circular`, `false` for `DMA_Mode_Normal`. -/
  DMA_Mode_Circular : Bool
  /-- `true` for `DMA_Priority_High`, `false` for `DMA_Priority_Medium`. -/
  DMA_Priority_High : Bool
  deriving Repr, DecidableEq

/-- One DMA stream: enable bit, transfer-complete interrupt enable, the
transfer-complete flag (`rx_flag` / `tx_flag`), the remaining-count register and
the configuration last given to `DMA_Init`. -/
structure DMA_Stream where
  EN : Bool
  TCIE : Bool
  TCIF : Bool
  NDTR : Nat
  init : Option DMA_InitTypeDef
  deriving Repr, DecidableEq

/-- Arguments of `USART_Init`. -/
structure USART_InitTypeDef where
  USART_BaudRate : Nat
  USART_WordLength : Nat
  USART_StopBits : Nat
  USART_Parity : Nat
  USART_HardwareFlowControl : Nat
  USART_Mode : Nat
  deriving Repr, DecidableEq

/-- The USART peripheral: the status flags of `SR`, the data register, the
interrupt and DMA-request enables, the enable bit and the line configuration
last given to `USART_Init`. -/
structure USART_TypeDef where
  RXNE : Bool
  IDLE : Bool
  TC : Bool
  ORE : Bool
  DR : Nat
  RXNEIE : Bool
  IDLEIE : Bool
  TCIE : Bool
  DMAR : Bool
  DMAT : Bool
  UE : Bool
  init : Option USART_InitTypeDef
  deriving Repr, DecidableEq

/-- The record `struct stm32_uart_dma`. -/
structure stm32_uart_dma where
  rx_stream : DMA_Stream
  rx_ch : Nat
  rx_irq_enabled : Bool
  setting_recv_len : Nat
  last_recv_index : Nat
  tx_stream : DMA_Stream
  tx_ch : Nat
  tx_irq_enabled : Bool
  deriving Repr, DecidableEq

/-- The record `struct stm32_uart`; `irq_enabled` is the interrupt controller
line of `irq`. -/
structure stm32_uart where
  uart_device : USART_TypeDef
  irq_enabled : Bool
  dma : stm32_uart_dma
  deriving Repr, DecidableEq

/-- The record `struct serial_configure`, the line configuration. -/
structure serial_configure where
  baud_rate : Nat
  data_bits : Nat
  stop_bits : Nat
  parity : Nat
  deriving Repr, DecidableEq

/-- What the handlers do to the outside, in program order. -/
inductive Effect where
  | rt_hw_interrupt_disable : Effect
  | rt_hw_interrupt_enable (level : Bool) : Effect
  | DMA_GetCurrDataCounter (remaining : Nat) : Effect
  | read_last_recv_index (v : Nat) : Effect
  | write_last_recv_index (v : Nat) : Effect
  | hal_serial_isr (event : Nat) : Effect
  | read_DR (v : Nat) : Effect
  | clear_RXNE : Effect
  | clear_TC : Effect
  deriving Repr, DecidableEq

/-- The part of `struct serial_device` the driver reads, the interrupt mask of
the processor, and the effects so far. -/
structure Machine where
  open_flag : Nat
  bufsz : Nat
  rx_fifo_buffer : Nat
  uart : stm32_uart
  interrupts_disabled : Bool
  trace : List Effect
  deriving Repr, DecidableEq

/-- The events handed to `hal_serial_isr`, oldest first. -/
def notifications : List Effect → List Nat
  | [] => []
  | Effect.hal_serial_isr w :: es => w :: notifications es
  | _ :: es => notifications es

/-! ## Primitives of the run-time and of the peripheral library -/

/-- Modelled from the spec: `rt_hw_interrupt_disable` of the kernel, the scoped
suspension of interrupts; it masks interrupts and returns the previous mask. -/
def rt_hw_interrupt_disable (m : Machine) : Bool × Machine :=
  (m.interrupts_disabled,
   { m with interrupts_disabled := true,
            trace := m.trace ++ [Effect.rt_hw_interrupt_disable] })

/-- Modelled from the spec: `rt_hw_interrupt_enable` of the kernel; it restores
the mask saved by the matching disable. -/
def rt_hw_interrupt_enable (level : Bool) (m : Machine) : Machine :=
  { m with interrupts_disabled := level,
           trace := m.trace ++ [Effect.rt_hw_interrupt_enable level] }

/-- Modelled from the spec: `hal_serial_isr` of the upper serial layer, the
notification sink; it receives one event word per call. -/
def hal_serial_isr (event : Nat) (m : Machine) : Machine :=
  { m with trace := m.trace ++ [Effect.hal_serial_isr event] }

/-- Modelled from the spec: `DMA_GetCurrDataCounter` on the receive stream, the
read of the remaining-count. -/
def DMA_GetCurrDataCounter_rx (m : Machine) : Nat × Machine :=
  (m.uart.dma.rx_stream.NDTR,
   { m with trace := m.trace ++ [Effect.DMA_GetCurrDataCounter m.uart.dma.rx_stream.NDTR] })

/-- Modelled from the spec: a read of the data register (`USART_ReceiveData`, or
`uart_device->DR` in an expression). The read clears the receive-not-empty
flag and, made after a read of the status register, the idle and the overrun
conditions. -/
def read_DR (m : Machine) : Nat × Machine :=
  (m.uart.uart_device.DR,
   { m with
     uart := { m.uart with
       uart_device := { m.uart.uart_device with RXNE := false, IDLE := false, ORE := false } },
     trace := m.trace ++ [Effect.read_DR m.uart.uart_device.DR] })

/-- Read of `uart->dma.last_recv_index`. -/
def get_last_recv_index (m : Machine) : Nat × Machine :=
  (m.uart.dma.last_recv_index,
   { m with trace := m.trace ++ [Effect.read_last_recv_index m.uart.dma.last_recv_index] })

/-- Assignment to `uart->dma.last_recv_index`. -/
def set_last_recv_index (v : Nat) (m : Machine) : Machine :=
  { m with
    uart := { m.uart with dma := { m.uart.dma with last_recv_index := v } },
    trace := m.trace ++ [Effect.write_last_recv_index v] }

/-- Update of the receive stream registers. -/
def set_rx_stream (f : DMA_Stream → DMA_Stream) (m : Machine) : Machine :=
  { m with uart := { m.uart with dma := { m.uart.dma with rx_stream := f m.uart.dma.rx_stream } } }

/-- Update of the transmit stream registers. -/
def set_tx_stream (f : DMA_Stream → DMA_Stream) (m : Machine) : Machine :=
  { m with uart := { m.uart with dma := { m.uart.dma with tx_stream := f m.uart.dma.tx_stream } } }

/-- Update of the USART registers. -/
def set_uart_device (f : USART_TypeDef → USART_TypeDef) (m : Machine) : Machine :=
  { m with uart := { m.uart with uart_device := f m.uart.uart_device } }

/-- Modelled from the spec: `USART_ClearITPendingBit` with `USART_IT_RXNE`, the
clear of the byte-ready cause flag. -/
def USART_ClearITPendingBit_RXNE (m : Machine) : Machine :=
  { set_uart_device (fun d => { d with RXNE := false }) m with
    trace := m.trace ++ [Effect.clear_RXNE] }

/-- Modelled from the spec: `USART_ClearITPendingBit` with `USART_IT_TC`, the
clear of the transmission-complete cause flag. -/
def USART_ClearITPendingBit_TC (m : Machine) : Machine :=
  { set_uart_device (fun d => { d with TC := false }) m with
    trace := m.trace ++ [Effect.clear_TC] }

/-- Modelled from the spec: `DMA_ClearFlag` with the stream's completion flag. -/
def DMA_ClearFlag (s : DMA_Stream) : DMA_Stream := { s with TCIF := false }

/-! ## Receive index tracker -/

/-- The handler `dma_uart_rx_idle_isr` (idle-line path). -/
def dma_uart_rx_idle_isr (k : Consts) (m : Machine) : Machine :=
  let (level, m) := rt_hw_interrupt_disable m
  let (remaining, m) := DMA_GetCurrDataCounter_rx m
  let recv_total_index := rt_size_sub m.uart.dma.setting_recv_len remaining
  let (last, m) := get_last_recv_index m
  let recv_len := rt_size_sub recv_total_index last
  let m := set_last_recv_index recv_total_index m
  let m := rt_hw_interrupt_enable level m
  let m := if recv_len ≠ 0 then
      hal_serial_isr (event_word k.SERIAL_EVENT_RX_DMADONE recv_len) m
    else m
  (read_DR m).2

/-- The handler `dma_rx_done_isr` (full-buffer path). -/
def dma_rx_done_isr (k : Consts) (m : Machine) : Machine :=
  if m.uart.dma.rx_stream.TCIF then
    let (level, m) := rt_hw_interrupt_disable m
    let (last, m) := get_last_recv_index m
    let recv_len := rt_size_sub m.uart.dma.setting_recv_len last
    let m := set_last_recv_index 0 m
    let m := rt_hw_interrupt_enable level m
    let m := if recv_len ≠ 0 then
        hal_serial_isr (event_word k.SERIAL_EVENT_RX_DMADONE recv_len) m
      else m
    set_rx_stream DMA_ClearFlag m
  else m

/-- The handler `dma_tx_done_isr` (transmit completion tracker). -/
def dma_tx_done_isr (k : Consts) (m : Machine) : Machine :=
  if m.uart.dma.tx_stream.TCIF then
    let m := hal_serial_isr k.SERIAL_EVENT_TX_DMADONE m
    set_tx_stream DMA_ClearFlag m
  else m

/-! ## Interrupt dispatcher -/

/-- The operation `usart_getc`: the data register is read only when the status
register shows receive-not-empty. -/
def usart_getc (m : Machine) : Int × Machine :=
  let ch : Int := -1
  if m.uart.uart_device.RXNE then
    let (dr, m) := read_DR m
    (((dr &&& 0xff : Nat) : Int), m)
  else (ch, m)

/-- First cause of `uart_isr`: byte ready. `USART_GetITStatus` holds when the
flag is set and its interrupt is enabled. -/
def uart_isr_rxne (k : Consts) (m : Machine) : Machine :=
  if m.uart.uart_device.RXNE && m.uart.uart_device.RXNEIE then
    let m := hal_serial_isr k.SERIAL_EVENT_RX_IND m
    USART_ClearITPendingBit_RXNE m
  else m

/-- Second cause of `uart_isr`: idle line. -/
def uart_isr_idle (k : Consts) (m : Machine) : Machine :=
  if m.uart.uart_device.IDLE && m.uart.uart_device.IDLEIE then
    dma_uart_rx_idle_isr k m
  else m

/-- Third cause of `uart_isr`: transmission complete. -/
def uart_isr_tc (m : Machine) : Machine :=
  if m.uart.uart_device.TC && m.uart.uart_device.TCIE then
    USART_ClearITPendingBit_TC m
  else m

/-- Fourth cause of `uart_isr`: the overrun flag, answered by `usart_getc`. -/
def uart_isr_ore (m : Machine) : Machine :=
  if m.uart.uart_device.ORE then (usart_getc m).2 else m

/-- The handler `uart_isr`: the four causes in program order. -/
def uart_isr (k : Consts) (m : Machine) : Machine :=
  uart_isr_ore (uart_isr_tc (uart_isr_idle k (uart_isr_rxne k m)))

/-! ## Channel operations -/

/-- Modelled from the spec: `DMA_DeInit`, which puts the stream registers back to
their reset values. -/
def DMA_DeInit (_s : DMA_Stream) : DMA_Stream :=
  { EN := false, TCIE := false, TCIF := false, NDTR := 0, init := none }

/-- The loop `while(DMA_GetCmdStatus(stream) != DISABLE);`. Nothing the loop does
changes the enable bit, so it is left at once when the bit is clear and never
when it is set (`none`). -/
def wait_stream_disabled (s : DMA_Stream) : Option DMA_Stream :=
  if s.EN then none else some s

/-- Modelled from the spec: `DMA_Init`, which programs the stream, its
remaining-count included. -/
def DMA_Init (i : DMA_InitTypeDef) (s : DMA_Stream) : DMA_Stream :=
  { s with NDTR := i.DMA_BufferSize, init := some i }

/-- Modelled from the spec: `DMA_ITConfig` with `DMA_IT_TC`. -/
def DMA_ITConfig (NewState : Bool) (s : DMA_Stream) : DMA_Stream :=
  { s with TCIE := NewState }

/-- Modelled from the spec: `DMA_Cmd`. -/
def DMA_Cmd (NewState : Bool) (s : DMA_Stream) : DMA_Stream := { s with EN := NewState }

/-- The function `_dma_rx_config`: arms the circular receive stream over the
buffer `buf` of `size` bytes. -/
def _dma_rx_config (buf size : Nat) (m : Machine) : Option Machine :=
  let m := { m with uart := { m.uart with dma := { m.uart.dma with rx_irq_enabled := true } } }
  let m := { m with uart := { m.uart with dma := { m.uart.dma with setting_recv_len := size } } }
  let m := set_rx_stream DMA_DeInit m
  match wait_stream_disabled m.uart.dma.rx_stream with
  | none => none
  | some _ =>
    let i : DMA_InitTypeDef :=
      { DMA_Channel := m.uart.dma.rx_ch,
        DMA_Memory0BaseAddr := buf,
        DMA_BufferSize := m.uart.dma.setting_recv_len,
        DMA_DIR_MemoryToPeripheral := false,
        DMA_Mode_Circular := true,
        DMA_Priority_High := true }
    let m := set_rx_stream (DMA_Init i) m
    let m := set_rx_stream DMA_ClearFlag m
    let m := set_rx_stream (DMA_ITConfig true) m
    let m := set_uart_device (fun d => { d with IDLEIE := true }) m
    let m := set_uart_device (fun d => { d with DMAR := true }) m
    some (set_rx_stream (DMA_Cmd true) m)

/-- The function `_dma_tx_config`: enables the interrupt line of the transmit
stream. -/
def _dma_tx_config (m : Machine) : Machine :=
  { m with uart := { m.uart with dma := { m.uart.dma with tx_irq_enabled := true } } }

/-- The function `_dma_transmit`: arms the transmit stream over `buf[0..size)`. -/
def _dma_transmit (buf size : Nat) (m : Machine) : Option Machine :=
  let m := set_tx_stream DMA_DeInit m
  match wait_stream_disabled m.uart.dma.tx_stream with
  | none => none
  | some _ =>
    let i : DMA_InitTypeDef :=
      { DMA_Channel := m.uart.dma.tx_ch,
        DMA_Memory0BaseAddr := buf,
        DMA_BufferSize := size,
        DMA_DIR_MemoryToPeripheral := true,
        DMA_Mode_Circular := false,
        DMA_Priority_High := false }
    let m := set_tx_stream (DMA_Init i) m
    let m := set_tx_stream DMA_ClearFlag m
    let m := set_tx_stream (DMA_ITConfig true) m
    let m := set_uart_device (fun d => { d with DMAT := true }) m
    some (set_tx_stream (DMA_Cmd true) m)

/-- The function `_close_usart`. -/
def _close_usart (k : Consts) (m : Machine) : Machine :=
  let open_flag := m.open_flag
  let m := if open_flag &&& k.RT_DEVICE_FLAG_INT_RX ≠ 0 then
      set_uart_device (fun d => { d with RXNEIE := false }) m
    else m
  let m := if open_flag &&& k.RT_DEVICE_FLAG_DMA_RX ≠ 0 then
      let m := set_rx_stream DMA_ClearFlag m
      let m := set_rx_stream (DMA_ITConfig false) m
      let m := set_uart_device (fun d => { d with IDLEIE := false }) m
      let m := set_uart_device (fun d => { d with DMAR := false }) m
      set_rx_stream (DMA_Cmd false) m
    else m
  let m := if open_flag &&& k.RT_DEVICE_FLAG_DMA_TX ≠ 0 then
      let m := set_tx_stream DMA_ClearFlag m
      let m := set_tx_stream (DMA_ITConfig false) m
      let m := set_uart_device (fun d => { d with DMAT := false }) m
      set_tx_stream (DMA_Cmd false) m
    else m
  { m with uart := { m.uart with dma := { m.uart.dma with last_recv_index := 0 } } }

/-- The operation `usart_configure`. The local `USART_InitStructure` is not
initialised: `uninit` is what the stack holds when the function is entered, and
a field no branch assigns keeps that value. -/
def usart_configure (k : Consts) (uninit : USART_InitTypeDef) (cfg : serial_configure)
    (m : Machine) : Int × Machine :=
  let USART_BaudRate := cfg.baud_rate
  let USART_WordLength :=
    if cfg.data_bits = k.DATA_BITS_8 then k.USART_WordLength_8b
    else if cfg.data_bits = k.DATA_BITS_9 then k.USART_WordLength_9b
    else uninit.USART_WordLength
  let USART_StopBits :=
    if cfg.stop_bits = k.STOP_BITS_1 then k.USART_StopBits_1
    else if cfg.stop_bits = k.STOP_BITS_2 then k.USART_StopBits_2
    else uninit.USART_StopBits
  let USART_Parity :=
    if cfg.parity = k.PARITY_NONE then k.USART_Parity_No
    else if cfg.parity = k.PARITY_ODD then k.USART_Parity_Odd
    else if cfg.parity = k.PARITY_EVEN then k.USART_Parity_Even
    else uninit.USART_Parity
  let USART_InitStructure : USART_InitTypeDef :=
    { USART_BaudRate := USART_BaudRate,
      USART_WordLength := USART_WordLength,
      USART_StopBits := USART_StopBits,
      USART_Parity := USART_Parity,
      USART_HardwareFlowControl := k.USART_HardwareFlowControl_None,
      USART_Mode := k.USART_Mode_Rx ||| k.USART_Mode_Tx }
  let m := set_uart_device (fun d => { d with init := some USART_InitStructure }) m
  let m := set_uart_device (fun d => { d with UE := true }) m
  (k.RT_EOK, m)

/-- The operation `usart_control`; `ctrl_arg` is the argument cast to a 32-bit
word. -/
def usart_control (k : Consts) (cmd : rt_device_ctrl) (ctrl_arg : Nat) (m : Machine) :
    Option (Int × Machine) :=
  match cmd with
  | rt_device_ctrl.RT_DEVICE_CTRL_CLR_INT =>
    if ctrl_arg = k.RT_DEVICE_FLAG_INT_RX then
      let m := { m with uart := { m.uart with irq_enabled := false } }
      some (k.RT_EOK, set_uart_device (fun d => { d with RXNEIE := false }) m)
    else some (k.RT_EOK, m)
  | rt_device_ctrl.RT_DEVICE_CTRL_SET_INT =>
    if ctrl_arg = k.RT_DEVICE_FLAG_INT_RX then
      let m := { m with uart := { m.uart with irq_enabled := true } }
      some (k.RT_EOK, set_uart_device (fun d => { d with RXNEIE := true }) m)
    else some (k.RT_EOK, m)
  | rt_device_ctrl.RT_DEVICE_CTRL_CONFIG =>
    let r := if ctrl_arg = k.RT_DEVICE_FLAG_DMA_RX then
        _dma_rx_config m.rx_fifo_buffer m.bufsz m
      else some m
    match r with
    | none => none
    | some m =>
      let m := if ctrl_arg = k.RT_DEVICE_FLAG_DMA_TX then _dma_tx_config m else m
      some (k.RT_EOK, m)
  | rt_device_ctrl.RT_DEVICE_CTRL_SUSPEND => some (k.RT_EOK, _close_usart k m)
  | rt_device_ctrl.other _ => some (k.RT_EOK, m)

/-- The operation `usart_dma_transmit`. -/
def usart_dma_transmit (k : Consts) (buf size : Nat) (direction : Int) (m : Machine) :
    Option (Nat × Machine) :=
  if direction = k.SERIAL_DMA_TX then
    match _dma_transmit buf size m with
    | none => none
    | some m => some (size, m)
  else some (0, m)

/-! ## Simulated hardware around the handlers -/

/-- Modelled from the spec: the circular DMA source stores one received byte.
The remaining-count goes down by one; when it reaches zero the stream raises
its completion flag and reloads the count with the capacity (the write pointer
wraps), and the full-buffer event is served by `dma_rx_done_isr`. -/
def dma_write_byte (k : Consts) (m : Machine) : Machine :=
  if m.uart.dma.rx_stream.NDTR ≤ 1 then
    dma_rx_done_isr k
      (set_rx_stream (fun s => { s with NDTR := m.uart.dma.setting_recv_len, TCIF := true }) m)
  else
    set_rx_stream (fun s => { s with NDTR := s.NDTR - 1 }) m

/-- Modelled from the spec: the source stores `n` bytes, one after the other. -/
def dma_write (k : Consts) : Nat → Machine → Machine
  | 0, m => m
  | n + 1, m => dma_write_byte k (dma_write k n m)

/-- Modelled from the spec: a burst of `n` bytes, after which the line goes idle
and the idle-line event is served by `dma_uart_rx_idle_isr`, which reads the
remaining-count the source shows at that moment. -/
def line_burst (k : Consts) (n : Nat) (m : Machine) : Machine :=
  dma_uart_rx_idle_isr k (dma_write k n m)

/-- Modelled from the spec: a reception, burst after burst. -/
def receive (k : Consts) : List Nat → Machine → Machine
  | [], m => m
  | n :: ns, m => receive k ns (line_burst k n m)

/-- Sum of the byte counts carried by the events handed to `hal_serial_isr`. -/
def reported_bytes (m : Machine) : Nat :=
  ((notifications m.trace).map event_count).sum

/-- The events that move the receive index. -/
inductive ChannelEvent where
  | idle_line (remaining : Nat) : ChannelEvent
  | buffer_full : ChannelEvent
  | suspend : ChannelEvent
  deriving Repr, DecidableEq

/-- Modelled from the spec: one event on the channel. An idle-line event runs
`dma_uart_rx_idle_isr` with the remaining-count at `remaining`; a full-buffer
event runs `dma_rx_done_isr` with the completion flag raised; a suspend is
`usart_control` with `RT_DEVICE_CTRL_SUSPEND`. -/
def ChannelEvent.apply (k : Consts) : ChannelEvent → Machine → Machine
  | ChannelEvent.idle_line remaining, m =>
    dma_uart_rx_idle_isr k (set_rx_stream (fun s => { s with NDTR := remaining }) m)
  | ChannelEvent.buffer_full, m =>
    dma_rx_done_isr k (set_rx_stream (fun s => { s with TCIF := true }) m)
  | ChannelEvent.suspend, m =>
    match usart_control k rt_device_ctrl.RT_DEVICE_CTRL_SUSPEND 0 m with
    | some (_, m) => m
    | none => m

/-- The channel after a sequence of events, applied in order. -/
def run_events (k : Consts) : List ChannelEvent → Machine → Machine
  | [], m => m
  | e :: es, m => run_events k es (ChannelEvent.apply k e m)

/-- The codes `usart_configure` compares a line configuration against are
pairwise different. -/
def Consts.line_codes_distinct (k : Consts) : Prop :=
  k.DATA_BITS_8 ≠ k.DATA_BITS_9 ∧ k.STOP_BITS_1 ≠ k.STOP_BITS_2 ∧
  k.PARITY_NONE ≠ k.PARITY_ODD ∧ k.PARITY_NONE ≠ k.PARITY_EVEN ∧ k.PARITY_ODD ≠ k.PARITY_EVEN

instance (k : Consts) : Decidable k.line_codes_distinct := by
  unfold Consts.line_codes_distinct
  infer_instance

/-- A channel with capacity `C`, remaining-count `R` and last receive index `L`,
opened for interrupt and DMA reception and DMA transmission; `rx_flag` and
`tx_flag` are the completion flags of the two streams. -/
def channel (C R L : Nat) (rx_flag tx_flag : Bool) : Machine :=
  { open_flag := 0xb00, bufsz := C, rx_fifo_buffer := 0x20000000,
    uart :=
      { uart_device :=
          { RXNE := false, IDLE := false, TC := false, ORE := false, DR := 0x41,
            RXNEIE := true, IDLEIE := true, TCIE := false, DMAR := true, DMAT := false,
            UE := true, init := none },
        irq_enabled := true,
        dma :=
          { rx_stream := { EN := true, TCIE := true, TCIF := rx_flag, NDTR := R, init := none },
            rx_ch := 4, rx_irq_enabled := true, setting_recv_len := C, last_recv_index := L,
            tx_stream := { EN := false, TCIE := false, TCIF := tx_flag, NDTR := 0, init := none },
            tx_ch := 4, tx_irq_enabled := true } },
    interrupts_disabled := false, trace := [] }

/-- The channel `channel 64 64 0` with the overrun flag set and the
receive-not-empty flag clear. -/
def overrun_channel : Machine :=
  set_uart_device (fun d => { d with ORE := true }) (channel 64 64 0 false false)

/-- The channel `channel 64 64 0` after `usart_dma_transmit` has armed a transmit
of 10 bytes at address `0x1000`; no completion has been processed. -/
def transmitting_channel : Machine :=
  match usart_dma_transmit fmt 0x1000 10 fmt.SERIAL_DMA_TX (channel 64 64 0 false false) with
  | some (_, m) => m
  | none => channel 64 64 0 false false

/-! ## Observations on one invocation -/

/-- The value `dma_uart_rx_idle_isr` gives its local `recv_total_index` when it
is entered in state `m`. -/
def idle_recv_total_index (m : Machine) : Nat :=
  rt_size_sub m.uart.dma.setting_recv_len m.uart.dma.rx_stream.NDTR

/-- The value `dma_uart_rx_idle_isr` gives its local `recv_len` (the new-bytes of
the idle-line path) when it is entered in state `m`. -/
def idle_recv_len (m : Machine) : Nat :=
  rt_size_sub (idle_recv_total_index m) m.uart.dma.last_recv_index

/-- The value `dma_rx_done_isr` gives its local `recv_len` when it is entered in
state `m` with the completion flag set. -/
def done_recv_len (m : Machine) : Nat :=
  rt_size_sub m.uart.dma.setting_recv_len m.uart.dma.last_recv_index

/-- The effects added to the trace between the states `before` and `after`. -/
def effects_of (before after : Machine) : List Effect :=
  after.trace.drop before.trace.length

/-- The events handed to `hal_serial_isr` between the states `before` and
`after`. -/
def emitted (before after : Machine) : List Nat :=
  notifications (effects_of before after)

/-- Modelled from the spec: the receive stream at the moment the buffer has
filled. The remaining-count has reached zero, so the stream has raised its
completion flag and, being circular, reloaded the count with the capacity;
nothing has been written since. -/
def dma_buffer_filled (m : Machine) : Machine :=
  set_rx_stream (fun s => { s with NDTR := m.uart.dma.setting_recv_len, TCIF := true }) m

/-- Scan of the effects of one invocation for the critical-section discipline.
`mask` is the interrupt mask of the processor and `saved` the level saved by a
disable that is not yet matched (`none` outside a critical section). A disable
opens a critical section and saves the mask; an enable must close the open
section with the saved level; the remaining-count and `last_recv_index` may
only be touched inside a section, `hal_serial_isr` only be called outside; at
the end no section may be open. -/
def critical_section_ok : Bool → Option Bool → List Effect → Bool
  | _, saved, [] => saved.isNone
  | mask, none, Effect.rt_hw_interrupt_disable :: es => critical_section_ok true (some mask) es
  | _, some _, Effect.rt_hw_interrupt_disable :: _ => false
  | _, some level0, Effect.rt_hw_interrupt_enable level :: es =>
    (level == level0) && critical_section_ok level none es
  | _, none, Effect.rt_hw_interrupt_enable _ :: _ => false
  | mask, saved, Effect.DMA_GetCurrDataCounter _ :: es =>
    saved.isSome && critical_section_ok mask saved es
  | mask, saved, Effect.read_last_recv_index _ :: es =>
    saved.isSome && critical_section_ok mask saved es
  | mask, saved, Effect.write_last_recv_index _ :: es =>
    saved.isSome && critical_section_ok mask saved es
  | mask, saved, Effect.hal_serial_isr _ :: es =>
    saved.isNone && critical_section_ok mask saved es
  | mask, saved, Effect.read_DR _ :: es => critical_section_ok mask saved es
  | mask, saved, Effect.clear_RXNE :: es => critical_section_ok mask saved es
  | mask, saved, Effect.clear_TC :: es => critical_section_ok mask saved es

/-- Scan of the effects of one invocation for events handed over with
interrupts masked: `mask` follows the disables and enables, and every call of
`hal_serial_isr` must find it clear. -/
def notified_unmasked : Bool → List Effect → Bool
  | _, [] => true
  | _, Effect.rt_hw_interrupt_disable :: es => notified_unmasked true es
  | _, Effect.rt_hw_interrupt_enable level :: es => notified_unmasked level es
  | mask, Effect.hal_serial_isr _ :: es => !mask && notified_unmasked mask es
  | mask, _ :: es => notified_unmasked mask es

/-- The channel `channel 64 50 0` with all four causes of `uart_isr` pending:
byte ready, idle line, transmission complete (its interrupt enabled) and
overrun. -/
def all_causes_channel : Machine :=
  set_uart_device
    (fun d => { d with RXNE := true, IDLE := true, TC := true, TCIE := true, ORE := true })
    (channel 64 50 0 false false)

/-! ## Words and traces -/

/-- Without wrap-around the 32-bit subtraction is the subtraction of naturals. -/
theorem rt_size_sub_eq {a b : Nat} (hb : b ≤ a) (ha : a < WORD) : rt_size_sub a b = a - b := by
  unfold rt_size_sub WORD at *
  omega

/-- An event word whose code fits 8 bits and whose count fits 24 bits. -/
theorem event_word_eq {e n : Nat} (he : e < 256) (hn : n < 16777216) :
    event_word e n = e + n * 256 := by
  unfold event_word WORD
  have h : 2 ^ 8 * n + e = 2 ^ 8 * n ||| e := Nat.mul_add_lt_is_or (by omega) n
  rw [Nat.shiftLeft_eq, Nat.lor_comm, Nat.mul_comm n, ← h]
  omega

/-- The count field of an event word gives the count back when it fits 24 bits. -/
theorem event_count_word {e n : Nat} (he : e < 256) (hn : n < 16777216) :
    event_count (event_word e n) = n := by
  rw [event_word_eq he hn]
  unfold event_count
  rw [Nat.shiftRight_eq_div_pow]
  omega

/-- The code field of an event word gives the code back. -/
theorem event_code_word {e n : Nat} (he : e < 256) (hn : n < 16777216) :
    event_code (event_word e n) = e := by
  rw [event_word_eq he hn]
  unfold event_code
  have h := Nat.and_pow_two_sub_one_eq_mod (e + n * 256) 8
  simp at h
  rw [h]
  omega

/-- The events of a trace made of two parts. -/
theorem notifications_append (a b : List Effect) :
    notifications (a ++ b) = notifications a ++ notifications b := by
  induction a with
  | nil => rfl
  | cons e es ih => cases e <;> simp [notifications, ih]

/-! ## Receive index tracker: one event -/

/-- Claim C1, amended: with capacity `C < 2^32`, remaining-count `R ≤ C` and last
receive index `L ≤ C - R`, one run of `dma_uart_rx_idle_isr` sets
`last_recv_index` to `C - R`; when `C - R - L > 0` it hands `hal_serial_isr`
exactly one event, the 32-bit word `SERIAL_EVENT_RX_DMADONE | ((C - R - L) << 8)`,
whose bits above bit 7 are `C - R - L` provided `C - R - L < 2^24`; when
`C - R - L = 0` it hands over nothing. -/
theorem rx_idle_emits_new_bytes (k : Consts) (m : Machine) (C R L : Nat)
    (hcap : m.uart.dma.setting_recv_len = C) (hrem : m.uart.dma.rx_stream.NDTR = R)
    (hlast : m.uart.dma.last_recv_index = L)
    (hC : C < WORD) (hR : R ≤ C) (hL : L ≤ C - R)
    (hcode : k.SERIAL_EVENT_RX_DMADONE < 256) :
    (dma_uart_rx_idle_isr k m).uart.dma.last_recv_index = C - R ∧
    (0 < C - R - L →
      notifications (dma_uart_rx_idle_isr k m).trace
          = notifications m.trace ++ [event_word k.SERIAL_EVENT_RX_DMADONE (C - R - L)] ∧
        (C - R - L < 16777216 →
          event_code (event_word k.SERIAL_EVENT_RX_DMADONE (C - R - L))
              = k.SERIAL_EVENT_RX_DMADONE ∧
            event_count (event_word k.SERIAL_EVENT_RX_DMADONE (C - R - L)) = C - R - L)) ∧
    (C - R - L = 0 →
      notifications (dma_uart_rx_idle_isr k m).trace = notifications m.trace) := by
  have h1 : rt_size_sub C R = C - R := rt_size_sub_eq hR hC
  have h2 : rt_size_sub (C - R) L = C - R - L := rt_size_sub_eq hL (by omega)
  refine ⟨?_, ?_, ?_⟩
  · simp [dma_uart_rx_idle_isr, rt_hw_interrupt_disable, DMA_GetCurrDataCounter_rx,
      get_last_recv_index, set_last_recv_index, rt_hw_interrupt_enable, hal_serial_isr, read_DR,
      hcap, hrem, hlast, h1, h2]
    split <;> rfl
  · intro hpos
    refine ⟨?_, fun hfit => ⟨event_code_word hcode hfit, event_count_word hcode hfit⟩⟩
    have hne : C - R - L ≠ 0 := by omega
    simp [dma_uart_rx_idle_isr, rt_hw_interrupt_disable, DMA_GetCurrDataCounter_rx,
      get_last_recv_index, set_last_recv_index, rt_hw_interrupt_enable, hal_serial_isr, read_DR,
      hcap, hrem, hlast, h1, h2, hne, notifications_append, notifications]
  · intro hz
    simp [dma_uart_rx_idle_isr, rt_hw_interrupt_disable, DMA_GetCurrDataCounter_rx,
      get_last_recv_index, set_last_recv_index, rt_hw_interrupt_enable, hal_serial_isr, read_DR,
      hcap, hrem, hlast, h1, h2, hz, notifications_append, notifications]

/-- Claim C1, witness: capacity 64, remaining-count 50, last receive index 0; the
idle-line path moves the index to 14 and hands over one event, which carries
the count 14. -/
theorem rx_idle_emits_new_bytes_witness :
    (dma_uart_rx_idle_isr fmt (channel 64 50 0 false false)).uart.dma.last_recv_index = 14 ∧
    notifications (dma_uart_rx_idle_isr fmt (channel 64 50 0 false false)).trace
      = [event_word fmt.SERIAL_EVENT_RX_DMADONE 14] ∧
    event_count (event_word fmt.SERIAL_EVENT_RX_DMADONE 14) = 14 :=
  have h := rx_idle_emits_new_bytes fmt (channel 64 50 0 false false) 64 50 0 rfl rfl rfl
    (by decide) (by decide) (by decide) (by decide)
  ⟨h.1, (h.2.1 (by decide)).1, ((h.2.1 (by decide)).2 (by decide)).2⟩

/-- Claim C1, counterexample: capacity `2^24`, remaining-count 0, last receive
index 0 satisfy `R ≤ C` and `L ≤ C - R` and give `C - R - L = 2^24 > 0`, but the
one event handed over is the bare `SERIAL_EVENT_RX_DMADONE`, whose bits above
bit 7 are 0: the count is shifted out of the 32-bit word. -/
theorem rx_idle_count_leaves_event_word :
    (channel 16777216 0 0 false false).uart.dma.rx_stream.NDTR
        ≤ (channel 16777216 0 0 false false).uart.dma.setting_recv_len ∧
    (channel 16777216 0 0 false false).uart.dma.last_recv_index
        ≤ (channel 16777216 0 0 false false).uart.dma.setting_recv_len
          - (channel 16777216 0 0 false false).uart.dma.rx_stream.NDTR ∧
    (channel 16777216 0 0 false false).uart.dma.setting_recv_len
        - (channel 16777216 0 0 false false).uart.dma.rx_stream.NDTR
        - (channel 16777216 0 0 false false).uart.dma.last_recv_index = 16777216 ∧
    notifications (dma_uart_rx_idle_isr fmt (channel 16777216 0 0 false false)).trace
      = [fmt.SERIAL_EVENT_RX_DMADONE] ∧
    (notifications (dma_uart_rx_idle_isr fmt (channel 16777216 0 0 false false)).trace).map
      event_count = [0] := by
  decide

/-- Claim C2, amended: with capacity `C < 2^32` and last receive index `L ≤ C`,
when the receive completion flag is set one run of `dma_rx_done_isr` resets
`last_recv_index` to 0, clears the flag and, when `C - L > 0`, hands
`hal_serial_isr` exactly one event, the 32-bit word
`SERIAL_EVENT_RX_DMADONE | ((C - L) << 8)`, whose bits above bit 7 are `C - L`
provided `C - L < 2^24` (nothing when `C - L = 0`); when the flag is not set the
run changes nothing at all. -/
theorem rx_done_emits_tail (k : Consts) (m : Machine) (C L : Nat)
    (hcap : m.uart.dma.setting_recv_len = C) (hlast : m.uart.dma.last_recv_index = L)
    (hC : C < WORD) (hL : L ≤ C)
    (hcode : k.SERIAL_EVENT_RX_DMADONE < 256) :
    (m.uart.dma.rx_stream.TCIF = true →
      (dma_rx_done_isr k m).uart.dma.last_recv_index = 0 ∧
      (dma_rx_done_isr k m).uart.dma.rx_stream.TCIF = false ∧
      (0 < C - L →
        notifications (dma_rx_done_isr k m).trace
            = notifications m.trace ++ [event_word k.SERIAL_EVENT_RX_DMADONE (C - L)] ∧
          (C - L < 16777216 →
            event_code (event_word k.SERIAL_EVENT_RX_DMADONE (C - L))
                = k.SERIAL_EVENT_RX_DMADONE ∧
              event_count (event_word k.SERIAL_EVENT_RX_DMADONE (C - L)) = C - L)) ∧
      (C - L = 0 → notifications (dma_rx_done_isr k m).trace = notifications m.trace)) ∧
    (m.uart.dma.rx_stream.TCIF = false → dma_rx_done_isr k m = m) := by
  have h1 : rt_size_sub C L = C - L := rt_size_sub_eq hL hC
  refine ⟨fun hflag => ⟨?_, ?_, ?_, ?_⟩, fun hflag => ?_⟩
  · simp [dma_rx_done_isr, hflag, rt_hw_interrupt_disable, get_last_recv_index,
      set_last_recv_index, rt_hw_interrupt_enable, hal_serial_isr, set_rx_stream, DMA_ClearFlag,
      hcap, hlast, h1]
    split <;> rfl
  · simp [dma_rx_done_isr, hflag, rt_hw_interrupt_disable, get_last_recv_index,
      set_last_recv_index, rt_hw_interrupt_enable, hal_serial_isr, set_rx_stream, DMA_ClearFlag,
      hcap, hlast, h1]
  · intro hpos
    refine ⟨?_, fun hfit => ⟨event_code_word hcode hfit, event_count_word hcode hfit⟩⟩
    have hne : C - L ≠ 0 := by omega
    simp [dma_rx_done_isr, hflag, rt_hw_interrupt_disable, get_last_recv_index,
      set_last_recv_index, rt_hw_interrupt_enable, hal_serial_isr, set_rx_stream, DMA_ClearFlag,
      hcap, hlast, h1, hne, notifications_append, notifications]
  · intro hz
    simp [dma_rx_done_isr, hflag, rt_hw_interrupt_disable, get_last_recv_index,
      set_last_recv_index, rt_hw_interrupt_enable, hal_serial_isr, set_rx_stream, DMA_ClearFlag,
      hcap, hlast, h1, hz, notifications_append, notifications]
  · simp [dma_rx_done_isr, hflag]

/-- Claim C2, witness: capacity 64, last receive index 14, completion flag set;
the full-buffer path resets the index, clears the flag and hands over one
event, which carries the count 50. -/
theorem rx_done_emits_tail_witness :
    (dma_rx_done_isr fmt (channel 64 64 14 true false)).uart.dma.last_recv_index = 0 ∧
    (dma_rx_done_isr fmt (channel 64 64 14 true false)).uart.dma.rx_stream.TCIF = false ∧
    notifications (dma_rx_done_isr fmt (channel 64 64 14 true false)).trace
      = [event_word fmt.SERIAL_EVENT_RX_DMADONE 50] ∧
    event_count (event_word fmt.SERIAL_EVENT_RX_DMADONE 50) = 50 :=
  have h := (rx_done_emits_tail fmt (channel 64 64 14 true false) 64 14 rfl rfl
    (by decide) (by decide) (by decide)).1 rfl
  ⟨h.1, h.2.1, (h.2.2.1 (by decide)).1, ((h.2.2.1 (by decide)).2 (by decide)).2⟩

/-- Claim C2, counterexample: capacity `2^24`, last receive index 0, completion
flag set give `C - L = 2^24 > 0`, but the one event handed over is the bare
`SERIAL_EVENT_RX_DMADONE`, whose bits above bit 7 are 0. -/
theorem rx_done_count_leaves_event_word :
    (channel 16777216 16777216 0 true false).uart.dma.last_recv_index
        ≤ (channel 16777216 16777216 0 true false).uart.dma.setting_recv_len ∧
    (channel 16777216 16777216 0 true false).uart.dma.rx_stream.TCIF = true ∧
    (channel 16777216 16777216 0 true false).uart.dma.setting_recv_len
        - (channel 16777216 16777216 0 true false).uart.dma.last_recv_index = 16777216 ∧
    notifications (dma_rx_done_isr fmt (channel 16777216 16777216 0 true false)).trace
      = [fmt.SERIAL_EVENT_RX_DMADONE] ∧
    (notifications (dma_rx_done_isr fmt (channel 16777216 16777216 0 true false)).trace).map
      event_count = [0] := by
  decide

/-! ## Byte conservation over a reception -/

/-- One more event adds its count to the bytes reported. -/
theorem reported_bytes_hal (w : Nat) (m : Machine) :
    reported_bytes (hal_serial_isr w m) = reported_bytes m + event_count w := by
  simp [reported_bytes, hal_serial_isr, notifications_append, notifications]

/-- One byte stored by the source: the channel stays in step with the source and
the bytes reported plus the bytes not yet reported grow by one. -/
theorem dma_write_byte_step (k : Consts) (m : Machine) (C : Nat)
    (hcode : k.SERIAL_EVENT_RX_DMADONE < 256) (hC : C < 16777216)
    (hcap : m.uart.dma.setting_recv_len = C)
    (h1 : 1 ≤ m.uart.dma.rx_stream.NDTR)
    (h2 : m.uart.dma.last_recv_index + m.uart.dma.rx_stream.NDTR ≤ C) :
    (dma_write_byte k m).uart.dma.setting_recv_len = C ∧
    1 ≤ (dma_write_byte k m).uart.dma.rx_stream.NDTR ∧
    (dma_write_byte k m).uart.dma.last_recv_index + (dma_write_byte k m).uart.dma.rx_stream.NDTR ≤ C ∧
    reported_bytes (dma_write_byte k m)
        + (C - (dma_write_byte k m).uart.dma.rx_stream.NDTR
             - (dma_write_byte k m).uart.dma.last_recv_index)
      = reported_bytes m + (C - m.uart.dma.rx_stream.NDTR - m.uart.dma.last_recv_index) + 1 := by
  unfold dma_write_byte
  by_cases hw : m.uart.dma.rx_stream.NDTR ≤ 1
  · have hL : m.uart.dma.last_recv_index ≤ C := by omega
    have hs : rt_size_sub C m.uart.dma.last_recv_index = C - m.uart.dma.last_recv_index :=
      rt_size_sub_eq hL (by unfold WORD; omega)
    have hne : C - m.uart.dma.last_recv_index ≠ 0 := by omega
    have hcnt := event_count_word (n := C - m.uart.dma.last_recv_index) hcode (by omega)
    simp [hw, dma_rx_done_isr, rt_hw_interrupt_disable, get_last_recv_index,
      set_last_recv_index, rt_hw_interrupt_enable, hal_serial_isr, set_rx_stream, DMA_ClearFlag,
      hcap, hs, hne, reported_bytes, notifications_append, notifications, hcnt]
    omega
  · simp [hw, set_rx_stream, hcap, reported_bytes]
    omega

/-- The same for `n` bytes. -/
theorem dma_write_steps (k : Consts) (C : Nat)
    (hcode : k.SERIAL_EVENT_RX_DMADONE < 256) (hC : C < 16777216) (n : Nat) (m : Machine)
    (hcap : m.uart.dma.setting_recv_len = C)
    (h1 : 1 ≤ m.uart.dma.rx_stream.NDTR)
    (h2 : m.uart.dma.last_recv_index + m.uart.dma.rx_stream.NDTR ≤ C) :
    (dma_write k n m).uart.dma.setting_recv_len = C ∧
    1 ≤ (dma_write k n m).uart.dma.rx_stream.NDTR ∧
    (dma_write k n m).uart.dma.last_recv_index + (dma_write k n m).uart.dma.rx_stream.NDTR ≤ C ∧
    reported_bytes (dma_write k n m)
        + (C - (dma_write k n m).uart.dma.rx_stream.NDTR
             - (dma_write k n m).uart.dma.last_recv_index)
      = reported_bytes m + (C - m.uart.dma.rx_stream.NDTR - m.uart.dma.last_recv_index) + n := by
  induction n with
  | zero => exact ⟨hcap, h1, h2, rfl⟩
  | succ n ih =>
    obtain ⟨a, b, c, d⟩ := ih
    obtain ⟨a', b', c', d'⟩ := dma_write_byte_step k (dma_write k n m) C hcode hC a b c
    refine ⟨a', b', c', ?_⟩
    show reported_bytes (dma_write_byte k (dma_write k n m))
        + (C - (dma_write_byte k (dma_write k n m)).uart.dma.rx_stream.NDTR
             - (dma_write_byte k (dma_write k n m)).uart.dma.last_recv_index) = _
    omega

/-- The idle-line path on a channel in step with the source reports every byte
not yet reported. -/
theorem rx_idle_step (k : Consts) (m : Machine) (C : Nat)
    (hcode : k.SERIAL_EVENT_RX_DMADONE < 256) (hC : C < 16777216)
    (hcap : m.uart.dma.setting_recv_len = C)
    (h1 : 1 ≤ m.uart.dma.rx_stream.NDTR)
    (h2 : m.uart.dma.last_recv_index + m.uart.dma.rx_stream.NDTR ≤ C) :
    (dma_uart_rx_idle_isr k m).uart.dma.setting_recv_len = C ∧
    (dma_uart_rx_idle_isr k m).uart.dma.rx_stream.NDTR = m.uart.dma.rx_stream.NDTR ∧
    (dma_uart_rx_idle_isr k m).uart.dma.last_recv_index = C - m.uart.dma.rx_stream.NDTR ∧
    reported_bytes (dma_uart_rx_idle_isr k m)
      = reported_bytes m + (C - m.uart.dma.rx_stream.NDTR - m.uart.dma.last_recv_index) := by
  have hs1 : rt_size_sub C m.uart.dma.rx_stream.NDTR = C - m.uart.dma.rx_stream.NDTR :=
    rt_size_sub_eq (by omega) (by unfold WORD; omega)
  have hs2 : rt_size_sub (C - m.uart.dma.rx_stream.NDTR) m.uart.dma.last_recv_index
      = C - m.uart.dma.rx_stream.NDTR - m.uart.dma.last_recv_index :=
    rt_size_sub_eq (by omega) (by unfold WORD; omega)
  have hcnt := event_count_word
    (n := C - m.uart.dma.rx_stream.NDTR - m.uart.dma.last_recv_index) hcode (by omega)
  by_cases hz : C - m.uart.dma.rx_stream.NDTR - m.uart.dma.last_recv_index = 0
  · simp [dma_uart_rx_idle_isr, rt_hw_interrupt_disable, DMA_GetCurrDataCounter_rx,
      get_last_recv_index, set_last_recv_index, rt_hw_interrupt_enable, hal_serial_isr, read_DR,
      hcap, hs1, hs2, hz, reported_bytes, notifications_append, notifications]
  · simp [dma_uart_rx_idle_isr, rt_hw_interrupt_disable, DMA_GetCurrDataCounter_rx,
      get_last_recv_index, set_last_recv_index, rt_hw_interrupt_enable, hal_serial_isr, read_DR,
      hcap, hs1, hs2, hz, reported_bytes, notifications_append, notifications, hcnt]

/-- Byte conservation from any state in which nothing is left to report. -/
theorem receive_steps (k : Consts) (C : Nat)
    (hcode : k.SERIAL_EVENT_RX_DMADONE < 256) (hC : C < 16777216) (bursts : List Nat) :
    ∀ m : Machine, m.uart.dma.setting_recv_len = C → 1 ≤ m.uart.dma.rx_stream.NDTR →
      m.uart.dma.last_recv_index + m.uart.dma.rx_stream.NDTR = C →
      reported_bytes (receive k bursts m) = reported_bytes m + bursts.sum := by
  induction bursts with
  | nil => intro m _ _ _; simp [receive]
  | cons n ns ih =>
    intro m hcap h1 h2
    obtain ⟨a, b, c, d⟩ := dma_write_steps k C hcode hC n m hcap h1 (by omega)
    obtain ⟨a', b', c', d'⟩ := rx_idle_step k (dma_write k n m) C hcode hC a b c
    have := ih (line_burst k n m) a' (by unfold line_burst; omega) (by unfold line_burst; omega)
    rw [receive, this]
    unfold line_burst
    simp only [List.sum_cons]
    omega

/-- The last byte of `n + 1` bytes is stored after the first `n`. -/
theorem dma_write_succ (k : Consts) (n : Nat) (m : Machine) :
    dma_write k (n + 1) m = dma_write_byte k (dma_write k n m) := rfl

/-- Bytes that do not fill the buffer only move the remaining-count. -/
theorem dma_write_no_wrap (k : Consts) (n : Nat) (m : Machine)
    (h : n < m.uart.dma.rx_stream.NDTR) :
    dma_write k n m = set_rx_stream (fun s => { s with NDTR := s.NDTR - n }) m := by
  induction n with
  | zero => rfl
  | succ n ih =>
    rw [dma_write_succ, ih (by omega)]
    have hw : ¬ (m.uart.dma.rx_stream.NDTR - n ≤ 1) := by omega
    simp [dma_write_byte, set_rx_stream, hw]
    omega

/-- Claim C3, amended: for every capacity `0 < C < 2^24` and every reception (a
finite sequence of bursts of any length, the simulated circular source raising
a full-buffer event each time the remaining-count reaches zero and an idle-line
event at the end of each burst) on a channel that starts with last receive index
0 and remaining-count `C`, the byte counts carried by the events handed to
`hal_serial_isr` add up to the number of bytes the source has written. -/
theorem byte_conservation (k : Consts) (C : Nat) (m : Machine) (bursts : List Nat)
    (hcode : k.SERIAL_EVENT_RX_DMADONE < 256) (hC0 : 0 < C) (hC : C < 16777216)
    (hcap : m.uart.dma.setting_recv_len = C) (hrem : m.uart.dma.rx_stream.NDTR = C)
    (hlast : m.uart.dma.last_recv_index = 0) :
    reported_bytes (receive k bursts m) = reported_bytes m + bursts.sum :=
  receive_steps k C hcode hC bursts m hcap (by omega) (by omega)

/-- Claim C3, witness: capacity 64 and the bursts 14, 50, 6 of the concrete
scenario; 70 bytes written, 70 bytes reported. -/
theorem byte_conservation_witness :
    reported_bytes (receive fmt [14, 50, 6] (channel 64 64 0 false false))
      = reported_bytes (channel 64 64 0 false false) + [14, 50, 6].sum :=
  byte_conservation fmt 64 (channel 64 64 0 false false) [14, 50, 6]
    (by decide) (by decide) (by decide) rfl rfl rfl

/-- Claim C3, counterexample: capacity `2^24`, channel starting at last receive
index 0, one burst of `2^24` bytes. The source fills the buffer once, the
full-buffer event hands over an event whose count field is 0, the idle-line
event hands over nothing: `2^24` bytes written, 0 bytes reported. -/
theorem byte_conservation_fails_at_wide_capacity :
    (channel 16777216 16777216 0 false false).uart.dma.last_recv_index = 0 ∧
    reported_bytes (channel 16777216 16777216 0 false false) = 0 ∧
    [16777216].sum = 16777216 ∧
    reported_bytes (receive fmt [16777216] (channel 16777216 16777216 0 false false)) = 0 := by
  refine ⟨rfl, rfl, rfl, ?_⟩
  have h := dma_write_no_wrap fmt 16777215 (channel 16777216 16777216 0 false false) (by decide)
  have h2 := dma_write_succ fmt 16777215 (channel 16777216 16777216 0 false false)
  rw [h] at h2
  simp only [receive, line_burst]
  rw [show (16777216 : Nat) = 16777215 + 1 from rfl, h2]
  decide

/-! ## Range of the receive index -/

/-- The function `_close_usart` resets the receive index and keeps the capacity. -/
theorem close_usart_fields (k : Consts) (m : Machine) :
    (_close_usart k m).uart.dma.last_recv_index = 0 ∧
    (_close_usart k m).uart.dma.setting_recv_len = m.uart.dma.setting_recv_len := by
  unfold _close_usart
  simp only [set_uart_device, set_rx_stream, set_tx_stream]
  split <;> split <;> split <;> simp

/-- One event keeps the capacity and leaves the receive index within it. -/
theorem apply_event_fields (k : Consts) (C : Nat) (hC : C < WORD) (e : ChannelEvent)
    (m : Machine) (hcap : m.uart.dma.setting_recv_len = C)
    (hrem : ∀ R, e = ChannelEvent.idle_line R → R ≤ C) :
    (ChannelEvent.apply k e m).uart.dma.setting_recv_len = C ∧
    (ChannelEvent.apply k e m).uart.dma.last_recv_index ≤ C ∧
    (0 < C → (∀ R, e = ChannelEvent.idle_line R → 1 ≤ R) → m.uart.dma.last_recv_index < C →
      (ChannelEvent.apply k e m).uart.dma.last_recv_index < C) := by
  cases e with
  | idle_line R =>
    have hR : R ≤ C := hrem R rfl
    have hs : rt_size_sub C R = C - R := rt_size_sub_eq hR hC
    have h : (ChannelEvent.apply k (ChannelEvent.idle_line R) m).uart.dma.setting_recv_len = C ∧
        (ChannelEvent.apply k (ChannelEvent.idle_line R) m).uart.dma.last_recv_index = C - R := by
      simp only [ChannelEvent.apply, dma_uart_rx_idle_isr, rt_hw_interrupt_disable,
        DMA_GetCurrDataCounter_rx, get_last_recv_index, set_last_recv_index,
        rt_hw_interrupt_enable, hal_serial_isr, read_DR, set_rx_stream, hcap, hs]
      constructor <;> split <;> simp [hcap]
    refine ⟨h.1, by rw [h.2]; omega, fun h0 h1 _ => ?_⟩
    have := h1 R rfl
    rw [h.2]; omega
  | buffer_full =>
    have h : (ChannelEvent.apply k ChannelEvent.buffer_full m).uart.dma.setting_recv_len = C ∧
        (ChannelEvent.apply k ChannelEvent.buffer_full m).uart.dma.last_recv_index = 0 := by
      simp only [ChannelEvent.apply, dma_rx_done_isr, rt_hw_interrupt_disable,
        get_last_recv_index, set_last_recv_index,
        rt_hw_interrupt_enable, hal_serial_isr, set_rx_stream, DMA_ClearFlag]
      simp only [if_true]
      constructor <;> split <;> simp [hcap]
    refine ⟨h.1, by rw [h.2]; omega, fun h0 _ _ => by rw [h.2]; exact h0⟩
  | suspend =>
    have h := close_usart_fields k m
    simp only [ChannelEvent.apply, usart_control]
    refine ⟨by rw [h.2, hcap], by rw [h.1]; omega, fun h0 _ _ => by rw [h.1]; exact h0⟩

/-- A full-buffer event leaves the receive index at 0. -/
theorem buffer_full_resets (k : Consts) (m : Machine) :
    (ChannelEvent.apply k ChannelEvent.buffer_full m).uart.dma.last_recv_index = 0 := by
  simp only [ChannelEvent.apply, dma_rx_done_isr, rt_hw_interrupt_disable,
    get_last_recv_index, set_last_recv_index,
    rt_hw_interrupt_enable, hal_serial_isr, set_rx_stream, DMA_ClearFlag]
  simp only [if_true]
  split <;> simp

/-- The range of the receive index after a sequence of events. -/
theorem run_events_fields (k : Consts) (C : Nat) (hC : C < WORD) (events : List ChannelEvent) :
    ∀ m : Machine, m.uart.dma.setting_recv_len = C → m.uart.dma.last_recv_index ≤ C →
      (∀ R, ChannelEvent.idle_line R ∈ events → R ≤ C) →
      (run_events k events m).uart.dma.last_recv_index ≤ C ∧
      (0 < C → (∀ R, ChannelEvent.idle_line R ∈ events → 1 ≤ R) →
        m.uart.dma.last_recv_index < C →
        (run_events k events m).uart.dma.last_recv_index < C) := by
  induction events with
  | nil => intro m _ hl _; exact ⟨hl, fun _ _ h => h⟩
  | cons e es ih =>
    intro m hcap hl hrem
    obtain ⟨a, b, c⟩ := apply_event_fields k C hC e m hcap
      (fun R hR => hrem R (by rw [hR]; exact List.mem_cons_self _ _))
    obtain ⟨d, f⟩ := ih (ChannelEvent.apply k e m) a b
      (fun R hR => hrem R (List.mem_cons_of_mem _ hR))
    refine ⟨d, fun h0 h1 hlt => ?_⟩
    exact f h0 (fun R hR => h1 R (List.mem_cons_of_mem _ hR))
      (c h0 (fun R hR => h1 R (by rw [hR]; exact List.mem_cons_self _ _)) hlt)

/-- Claim C4, amended: for every capacity `0 < C < 2^32` and every state reached
from `last_recv_index = 0` by idle-line events with remaining-count in `0..C`,
full-buffer events and suspends, `last_recv_index ≤ C`; it is below `C` when
every idle-line event reads a remaining-count of at least 1; and right after a
full-buffer event, from any state, it is 0. -/
theorem last_recv_index_range (k : Consts) (C : Nat) (m : Machine) (events : List ChannelEvent)
    (hC0 : 0 < C) (hC : C < WORD)
    (hcap : m.uart.dma.setting_recv_len = C) (hlast : m.uart.dma.last_recv_index = 0)
    (hrem : ∀ R, ChannelEvent.idle_line R ∈ events → R ≤ C) :
    (run_events k events m).uart.dma.last_recv_index ≤ C ∧
    ((∀ R, ChannelEvent.idle_line R ∈ events → 1 ≤ R) →
      (run_events k events m).uart.dma.last_recv_index < C) ∧
    (∀ m1 : Machine,
      (ChannelEvent.apply k ChannelEvent.buffer_full m1).uart.dma.last_recv_index = 0) := by
  obtain ⟨a, b⟩ := run_events_fields k C hC events m hcap (by omega) hrem
  exact ⟨a, fun h1 => b hC0 h1 (by omega), fun m1 => buffer_full_resets k m1⟩

/-- Claim C4, witness: capacity 64 and the events idle-line at 50, full-buffer,
idle-line at 58, suspend, idle-line at 6; the index ends below 64. -/
theorem last_recv_index_range_witness :
    (run_events fmt
        [ChannelEvent.idle_line 50, ChannelEvent.buffer_full, ChannelEvent.idle_line 58,
          ChannelEvent.suspend, ChannelEvent.idle_line 6]
        (channel 64 64 0 false false)).uart.dma.last_recv_index < 64 :=
  (last_recv_index_range fmt 64 (channel 64 64 0 false false)
    [ChannelEvent.idle_line 50, ChannelEvent.buffer_full, ChannelEvent.idle_line 58,
      ChannelEvent.suspend, ChannelEvent.idle_line 6]
    (by decide) (by decide) rfl rfl
    (by intro R h; simp at h; omega)).2.1
    (by intro R h; simp at h; omega)

/-- Claim C4, counterexample: capacity 64, channel at last receive index 0, one
idle-line event that reads remaining-count 0 (inside `0..C`): the index becomes
64, which is not below the capacity. -/
theorem last_recv_index_reaches_capacity :
    (channel 64 64 0 false false).uart.dma.last_recv_index = 0 ∧
    (0 : Nat) ≤ (channel 64 64 0 false false).uart.dma.setting_recv_len ∧
    (run_events fmt [ChannelEvent.idle_line 0]
        (channel 64 64 0 false false)).uart.dma.last_recv_index = 64 ∧
    ¬ ((run_events fmt [ChannelEvent.idle_line 0]
          (channel 64 64 0 false false)).uart.dma.last_recv_index
        < (channel 64 64 0 false false).uart.dma.setting_recv_len) := by
  decide

/-! ## Transmit -/

/-- Claim C5, amended: `usart_dma_transmit` in the TX direction never rejects.
From every channel state, a transmit in flight or not, it returns `size` and
leaves the transmit stream re-initialised and armed over `buf[0..size)` with a
clear completion flag; so it also succeeds and returns `size` after the
completion event. The receive index and the events handed over are untouched. -/
theorem usart_dma_transmit_rearms (k : Consts) (m : Machine) (buf size : Nat) :
    ∃ m1 : Machine,
      usart_dma_transmit k buf size k.SERIAL_DMA_TX m = some (size, m1) ∧
      m1.uart.dma.tx_stream =
        { EN := true, TCIE := true, TCIF := false, NDTR := size,
          init := some
            { DMA_Channel := m.uart.dma.tx_ch, DMA_Memory0BaseAddr := buf, DMA_BufferSize := size,
              DMA_DIR_MemoryToPeripheral := true, DMA_Mode_Circular := false,
              DMA_Priority_High := false } } ∧
      m1.uart.uart_device.DMAT = true ∧
      m1.uart.dma.last_recv_index = m.uart.dma.last_recv_index ∧
      m1.trace = m.trace := by
  simp [usart_dma_transmit, _dma_transmit, set_tx_stream, set_uart_device, DMA_DeInit,
    wait_stream_disabled, DMA_Init, DMA_ClearFlag, DMA_ITConfig, DMA_Cmd]

/-- Claim C5, counterexample: on `transmitting_channel` a transmit of 10 bytes is
armed and its completion flag is still clear; a further call for 20 bytes at
`0x2000` returns 20, the value of a successful call, and the state it leaves
differs from the one it found: the stream is re-armed over the new buffer. -/
theorem usart_dma_transmit_not_rejected_in_flight :
    transmitting_channel.uart.dma.tx_stream.EN = true ∧
    transmitting_channel.uart.dma.tx_stream.TCIF = false ∧
    (transmitting_channel.uart.dma.tx_stream.init.map
      (fun i => (i.DMA_Memory0BaseAddr, i.DMA_BufferSize))) = some (0x1000, 10) ∧
    (usart_dma_transmit fmt 0x2000 20 fmt.SERIAL_DMA_TX transmitting_channel).map
      (fun r => (r.1, decide (r.2 = transmitting_channel),
        r.2.uart.dma.tx_stream.init.map (fun i => (i.DMA_Memory0BaseAddr, i.DMA_BufferSize))))
      = some (20, false, some (0x2000, 20)) := by
  decide

/-- Claim C8: when the transmit completion flag is set, one run of
`dma_tx_done_isr` hands `hal_serial_isr` exactly one event, the bare
`SERIAL_EVENT_TX_DMADONE` (its count field is 0, the code fitting 8 bits), and
clears the flag; when the flag is not set the run changes nothing; in both
cases `last_recv_index` and `setting_recv_len` are unchanged. -/
theorem tx_done_emits_once (k : Consts) (m : Machine) :
    (m.uart.dma.tx_stream.TCIF = true →
      notifications (dma_tx_done_isr k m).trace
        = notifications m.trace ++ [k.SERIAL_EVENT_TX_DMADONE] ∧
      (k.SERIAL_EVENT_TX_DMADONE < 256 → event_count k.SERIAL_EVENT_TX_DMADONE = 0) ∧
      (dma_tx_done_isr k m).uart.dma.tx_stream.TCIF = false) ∧
    (m.uart.dma.tx_stream.TCIF = false → dma_tx_done_isr k m = m) ∧
    (dma_tx_done_isr k m).uart.dma.last_recv_index = m.uart.dma.last_recv_index ∧
    (dma_tx_done_isr k m).uart.dma.setting_recv_len = m.uart.dma.setting_recv_len := by
  refine ⟨fun h => ⟨?_, ?_, ?_⟩, fun h => ?_, ?_, ?_⟩
  · simp [dma_tx_done_isr, h, hal_serial_isr, set_tx_stream, DMA_ClearFlag,
      notifications_append, notifications]
  · intro hlt
    unfold event_count
    rw [Nat.shiftRight_eq_div_pow]
    omega
  · simp [dma_tx_done_isr, h, hal_serial_isr, set_tx_stream, DMA_ClearFlag]
  · simp [dma_tx_done_isr, h]
  · unfold dma_tx_done_isr; split <;> rfl
  · unfold dma_tx_done_isr; split <;> rfl

/-- Claim C8, witness: a channel whose transmit completion flag is set; one
event, `SERIAL_EVENT_TX_DMADONE` with count field 0, and the flag is cleared. -/
theorem tx_done_emits_once_witness :
    notifications (dma_tx_done_isr fmt (channel 64 64 0 false true)).trace
      = [fmt.SERIAL_EVENT_TX_DMADONE] ∧
    event_count fmt.SERIAL_EVENT_TX_DMADONE = 0 ∧
    (dma_tx_done_isr fmt (channel 64 64 0 false true)).uart.dma.tx_stream.TCIF = false :=
  have h := (tx_done_emits_once fmt (channel 64 64 0 false true)).1 rfl
  ⟨h.1, h.2.1 (by decide), h.2.2⟩

/-! ## Configure and suspend -/

/-- Claim C6, amended: `usart_configure` validates nothing. For every line
configuration it returns `RT_EOK`, hands `USART_Init` a configuration with the
requested baud rate, no hardware flow control and mode `Rx | Tx`, and enables
the USART; data bits 8 and 9, stop bits 1 and 2 and parity none, odd and even
are translated into the matching settings. -/
theorem usart_configure_always_applies (k : Consts) (uninit : USART_InitTypeDef)
    (cfg : serial_configure) (m : Machine) (hk : k.line_codes_distinct) :
    (usart_configure k uninit cfg m).1 = k.RT_EOK ∧
    (usart_configure k uninit cfg m).2.uart.uart_device.UE = true ∧
    ∃ i : USART_InitTypeDef,
      (usart_configure k uninit cfg m).2.uart.uart_device.init = some i ∧
      i.USART_BaudRate = cfg.baud_rate ∧
      i.USART_HardwareFlowControl = k.USART_HardwareFlowControl_None ∧
      i.USART_Mode = k.USART_Mode_Rx ||| k.USART_Mode_Tx ∧
      (cfg.data_bits = k.DATA_BITS_8 → i.USART_WordLength = k.USART_WordLength_8b) ∧
      (cfg.data_bits = k.DATA_BITS_9 → i.USART_WordLength = k.USART_WordLength_9b) ∧
      (cfg.stop_bits = k.STOP_BITS_1 → i.USART_StopBits = k.USART_StopBits_1) ∧
      (cfg.stop_bits = k.STOP_BITS_2 → i.USART_StopBits = k.USART_StopBits_2) ∧
      (cfg.parity = k.PARITY_NONE → i.USART_Parity = k.USART_Parity_No) ∧
      (cfg.parity = k.PARITY_ODD → i.USART_Parity = k.USART_Parity_Odd) ∧
      (cfg.parity = k.PARITY_EVEN → i.USART_Parity = k.USART_Parity_Even) := by
  obtain ⟨hdata, hstop, hp1, hp2, hp3⟩ := hk
  refine ⟨rfl, rfl, _, rfl, ?_, ?_, ?_, ?_, ?_, ?_, ?_, ?_, ?_, ?_⟩
  · rfl
  · rfl
  · rfl
  · intro h; simp [h]
  · intro h; simp [h, Ne.symm hdata]
  · intro h; simp [h]
  · intro h; simp [h, Ne.symm hstop]
  · intro h; simp [h]
  · intro h; simp [h, Ne.symm hp1]
  · intro h; simp [h, Ne.symm hp2, Ne.symm hp3]

/-- Claim C6, witness: 115200 baud, 8 data bits, 1 stop bit, no parity, with the
constants of the firmware headers and a local structure that holds other
values on entry (flow control `0x0300`, mode 0 among them). The call returns
`RT_EOK`, enables the USART and hands `USART_Init` 115200 baud, word length 8,
one stop bit, no parity, no flow control and mode `Rx | Tx`. -/
theorem usart_configure_always_applies_witness :
    fmt.line_codes_distinct ∧
    (usart_configure fmt ⟨9600, 0x1000, 0x2000, 0x0600, 0x0300, 0⟩ ⟨115200, 8, 0, 0⟩
      (channel 64 64 0 false false)).1 = fmt.RT_EOK ∧
    (usart_configure fmt ⟨9600, 0x1000, 0x2000, 0x0600, 0x0300, 0⟩ ⟨115200, 8, 0, 0⟩
      (channel 64 64 0 false false)).2.uart.uart_device.UE = true ∧
    (usart_configure fmt ⟨9600, 0x1000, 0x2000, 0x0600, 0x0300, 0⟩ ⟨115200, 8, 0, 0⟩
      (channel 64 64 0 false false)).2.uart.uart_device.init
      = some
        { USART_BaudRate := 115200,
          USART_WordLength := fmt.USART_WordLength_8b,
          USART_StopBits := fmt.USART_StopBits_1,
          USART_Parity := fmt.USART_Parity_No,
          USART_HardwareFlowControl := fmt.USART_HardwareFlowControl_None,
          USART_Mode := fmt.USART_Mode_Rx ||| fmt.USART_Mode_Tx } :=
  match usart_configure_always_applies fmt ⟨9600, 0x1000, 0x2000, 0x0600, 0x0300, 0⟩
      ⟨115200, 8, 0, 0⟩ (channel 64 64 0 false false) (by decide) with
  | ⟨h1, h2, i, hi, hb, hf, hm, hd8, _, hs1, _, hp0, _, _⟩ =>
    ⟨by decide, h1, h2, by
      rw [hi]
      cases i
      simp only [USART_InitTypeDef.mk.injEq, Option.some.injEq]
      exact ⟨hb, hd8 rfl, hs1 rfl, hp0 rfl, hf, hm⟩⟩

/-- Claim C6, counterexample: 7 data bits is neither `DATA_BITS_8` nor
`DATA_BITS_9`, yet `usart_configure` returns `RT_EOK` and the USART registers
are not those it found: a configuration has been applied. -/
theorem usart_configure_accepts_seven_data_bits :
    (7 : Nat) ≠ fmt.DATA_BITS_8 ∧ (7 : Nat) ≠ fmt.DATA_BITS_9 ∧
    (usart_configure fmt ⟨0, 0, 0, 0, 0, 0⟩ ⟨115200, 7, 0, 0⟩ (channel 64 64 0 false false)).1
      = fmt.RT_EOK ∧
    (usart_configure fmt ⟨0, 0, 0, 0, 0, 0⟩ ⟨115200, 7, 0, 0⟩
        (channel 64 64 0 false false)).2.uart.uart_device
      ≠ (channel 64 64 0 false false).uart.uart_device := by
  decide

/-- Claim C7: for every value of `open_flag` and every prior `last_recv_index`,
`usart_control` with `RT_DEVICE_CTRL_SUSPEND` returns `RT_EOK` and leaves
`last_recv_index` at 0; the byte interrupt is disabled when `INT_RX` was active,
the receive stream, its completion interrupt and flag, the idle interrupt and
the receive DMA request when `DMA_RX` was active, and the transmit stream, its
completion interrupt and flag and the transmit DMA request when `DMA_TX` was
active. -/
theorem suspend_resets_receive_index (k : Consts) (m : Machine) (ctrl_arg : Nat) :
    ∃ m1 : Machine,
      usart_control k rt_device_ctrl.RT_DEVICE_CTRL_SUSPEND ctrl_arg m = some (k.RT_EOK, m1) ∧
      m1 = _close_usart k m ∧
      m1.uart.dma.last_recv_index = 0 ∧
      (m.open_flag &&& k.RT_DEVICE_FLAG_INT_RX ≠ 0 → m1.uart.uart_device.RXNEIE = false) ∧
      (m.open_flag &&& k.RT_DEVICE_FLAG_DMA_RX ≠ 0 →
        m1.uart.dma.rx_stream.EN = false ∧ m1.uart.dma.rx_stream.TCIE = false ∧
        m1.uart.dma.rx_stream.TCIF = false ∧ m1.uart.uart_device.IDLEIE = false ∧
        m1.uart.uart_device.DMAR = false) ∧
      (m.open_flag &&& k.RT_DEVICE_FLAG_DMA_TX ≠ 0 →
        m1.uart.dma.tx_stream.EN = false ∧ m1.uart.dma.tx_stream.TCIE = false ∧
        m1.uart.dma.tx_stream.TCIF = false ∧ m1.uart.uart_device.DMAT = false) := by
  refine ⟨_close_usart k m, rfl, rfl, (close_usart_fields k m).1, ?_, ?_, ?_⟩ <;> intro h <;>
    by_cases h1 : m.open_flag &&& k.RT_DEVICE_FLAG_INT_RX = 0 <;>
    by_cases h2 : m.open_flag &&& k.RT_DEVICE_FLAG_DMA_RX = 0 <;>
    by_cases h3 : m.open_flag &&& k.RT_DEVICE_FLAG_DMA_TX = 0 <;>
    simp_all [_close_usart, set_uart_device, set_rx_stream, set_tx_stream, DMA_ClearFlag,
      DMA_ITConfig, DMA_Cmd]

/-- Claim C7, witness: a channel opened with all three capabilities and last
receive index 14 is suspended. -/
theorem suspend_resets_receive_index_witness :
    ∃ m1 : Machine,
      usart_control fmt rt_device_ctrl.RT_DEVICE_CTRL_SUSPEND 0 (channel 64 50 14 false false)
        = some (fmt.RT_EOK, m1) ∧
      m1.uart.dma.last_recv_index = 0 ∧
      m1.uart.uart_device.RXNEIE = false ∧
      m1.uart.dma.rx_stream.EN = false ∧
      m1.uart.dma.tx_stream.EN = false :=
  match suspend_resets_receive_index fmt (channel 64 50 14 false false) 0 with
  | ⟨m1, h1, _, h2, h3, h4, h5⟩ =>
    ⟨m1, h1, h2, h3 (by decide), (h4 (by decide)).1, (h5 (by decide)).1⟩

/-! ## Byte read and overrun -/

/-- Claim C9, the code at the failing input: on `overrun_channel` the overrun
flag is set and receive-not-empty is clear; `uart_isr` returns the machine as
it found it, so the data register has not been read and the overrun flag is
still set. -/
theorem uart_isr_leaves_overrun_set :
    overrun_channel.uart.uart_device.ORE = true ∧
    overrun_channel.uart.uart_device.RXNE = false ∧
    uart_isr fmt overrun_channel = overrun_channel ∧
    (uart_isr fmt overrun_channel).uart.uart_device.ORE = true ∧
    (uart_isr fmt overrun_channel).trace = [] := by
  decide

/-- Claim C10: `usart_getc` returns -1 exactly when the receive-not-empty flag is
clear, and then leaves the machine untouched (the data register is not read);
otherwise it reads the data register once and returns its value masked to 8
bits, a value in `0..255`. -/
theorem usart_getc_optional_byte (m : Machine) :
    ((usart_getc m).1 = -1 ↔ m.uart.uart_device.RXNE = false) ∧
    (m.uart.uart_device.RXNE = false → (usart_getc m).2 = m) ∧
    (m.uart.uart_device.RXNE = true →
      (usart_getc m).1 = ((m.uart.uart_device.DR % 256 : Nat) : Int) ∧
      0 ≤ (usart_getc m).1 ∧ (usart_getc m).1 ≤ 255 ∧
      (usart_getc m).2.trace = m.trace ++ [Effect.read_DR m.uart.uart_device.DR]) := by
  have hmask : m.uart.uart_device.DR &&& 255 = m.uart.uart_device.DR % 256 := by
    have h := Nat.and_pow_two_sub_one_eq_mod m.uart.uart_device.DR 8
    simpa using h
  cases hr : m.uart.uart_device.RXNE with
  | false => simp [usart_getc, hr]
  | true =>
    simp [usart_getc, hr, read_DR, hmask]
    omega

/-- Claim C10, witness: a channel with receive-not-empty set and `0x141` in the
data register; the byte read is `0x41`. -/
theorem usart_getc_optional_byte_witness :
    (usart_getc (set_uart_device (fun d => { d with RXNE := true, DR := 0x141 })
      (channel 64 64 0 false false))).1 = ((0x141 % 256 : Nat) : Int) :=
  ((usart_getc_optional_byte (set_uart_device (fun d => { d with RXNE := true, DR := 0x141 })
      (channel 64 64 0 false false))).2.2 rfl).1

/-! ## Effects of one invocation -/

/-- The effects of one run of `dma_uart_rx_idle_isr`, in program order. -/
theorem rx_idle_trace (k : Consts) (m : Machine) :
    (dma_uart_rx_idle_isr k m).trace = m.trace ++
      ([Effect.rt_hw_interrupt_disable,
        Effect.DMA_GetCurrDataCounter m.uart.dma.rx_stream.NDTR,
        Effect.read_last_recv_index m.uart.dma.last_recv_index,
        Effect.write_last_recv_index (idle_recv_total_index m),
        Effect.rt_hw_interrupt_enable m.interrupts_disabled] ++
       (if idle_recv_len m ≠ 0 then
          [Effect.hal_serial_isr (event_word k.SERIAL_EVENT_RX_DMADONE (idle_recv_len m))]
        else []) ++
       [Effect.read_DR m.uart.uart_device.DR]) := by
  by_cases h : idle_recv_len m = 0
  · have h' := h
    simp only [idle_recv_len, idle_recv_total_index] at h'
    simp [dma_uart_rx_idle_isr, rt_hw_interrupt_disable, DMA_GetCurrDataCounter_rx,
      get_last_recv_index, set_last_recv_index, rt_hw_interrupt_enable, hal_serial_isr, read_DR,
      h, h', idle_recv_total_index]
  · have h' := h
    simp only [idle_recv_len, idle_recv_total_index] at h'
    simp [dma_uart_rx_idle_isr, rt_hw_interrupt_disable, DMA_GetCurrDataCounter_rx,
      get_last_recv_index, set_last_recv_index, rt_hw_interrupt_enable, hal_serial_isr, read_DR,
      h, h', idle_recv_total_index, idle_recv_len]

/-- The effects of one run of `dma_rx_done_isr`, in program order. -/
theorem rx_done_trace (k : Consts) (m : Machine) :
    (dma_rx_done_isr k m).trace = m.trace ++
      (if m.uart.dma.rx_stream.TCIF then
        [Effect.rt_hw_interrupt_disable,
          Effect.read_last_recv_index m.uart.dma.last_recv_index,
          Effect.write_last_recv_index 0,
          Effect.rt_hw_interrupt_enable m.interrupts_disabled] ++
        (if done_recv_len m ≠ 0 then
          [Effect.hal_serial_isr (event_word k.SERIAL_EVENT_RX_DMADONE (done_recv_len m))]
        else [])
      else []) := by
  by_cases hf : m.uart.dma.rx_stream.TCIF = true
  · by_cases h : done_recv_len m = 0
    · have h' := h
      simp only [done_recv_len] at h'
      simp [dma_rx_done_isr, hf, rt_hw_interrupt_disable, get_last_recv_index,
        set_last_recv_index, rt_hw_interrupt_enable, hal_serial_isr, set_rx_stream,
        DMA_ClearFlag, h, h']
    · have h' := h
      simp only [done_recv_len] at h'
      simp [dma_rx_done_isr, hf, rt_hw_interrupt_disable, get_last_recv_index,
        set_last_recv_index, rt_hw_interrupt_enable, hal_serial_isr, set_rx_stream,
        DMA_ClearFlag, h, h', done_recv_len]
  · simp [dma_rx_done_isr, hf]

/-- The registers `dma_uart_rx_idle_isr` leaves behind. -/
theorem rx_idle_state (k : Consts) (m : Machine) :
    (dma_uart_rx_idle_isr k m).uart =
      { m.uart with
        uart_device := { m.uart.uart_device with RXNE := false, IDLE := false, ORE := false },
        dma := { m.uart.dma with last_recv_index := idle_recv_total_index m } } ∧
    (dma_uart_rx_idle_isr k m).interrupts_disabled = m.interrupts_disabled := by
  by_cases h : rt_size_sub (rt_size_sub m.uart.dma.setting_recv_len m.uart.dma.rx_stream.NDTR)
      m.uart.dma.last_recv_index = 0 <;>
  simp [dma_uart_rx_idle_isr, rt_hw_interrupt_disable, DMA_GetCurrDataCounter_rx,
    get_last_recv_index, set_last_recv_index, rt_hw_interrupt_enable, hal_serial_isr, read_DR,
    h, idle_recv_total_index]

/-- What was added to a trace that has only grown. -/
theorem effects_of_append (m m1 : Machine) (t : List Effect) (h : m1.trace = m.trace ++ t) :
    effects_of m m1 = t := by
  unfold effects_of
  rw [h, List.drop_left]

/-- The effects of one run of `uart_isr`, cause by cause. -/
theorem uart_isr_trace (k : Consts) (m : Machine) :
    (uart_isr k m).trace = m.trace ++
      ((if m.uart.uart_device.RXNE && m.uart.uart_device.RXNEIE then
          [Effect.hal_serial_isr k.SERIAL_EVENT_RX_IND, Effect.clear_RXNE]
        else []) ++
       (if m.uart.uart_device.IDLE && m.uart.uart_device.IDLEIE then
          [Effect.rt_hw_interrupt_disable,
            Effect.DMA_GetCurrDataCounter m.uart.dma.rx_stream.NDTR,
            Effect.read_last_recv_index m.uart.dma.last_recv_index,
            Effect.write_last_recv_index (idle_recv_total_index m),
            Effect.rt_hw_interrupt_enable m.interrupts_disabled] ++
          (if idle_recv_len m ≠ 0 then
            [Effect.hal_serial_isr (event_word k.SERIAL_EVENT_RX_DMADONE (idle_recv_len m))]
          else []) ++
          [Effect.read_DR m.uart.uart_device.DR]
        else []) ++
       (if m.uart.uart_device.TC && m.uart.uart_device.TCIE then [Effect.clear_TC] else []) ++
       (if m.uart.uart_device.ORE && m.uart.uart_device.RXNE && !m.uart.uart_device.RXNEIE
            && !(m.uart.uart_device.IDLE && m.uart.uart_device.IDLEIE) then
          [Effect.read_DR m.uart.uart_device.DR]
        else [])) := by
  have hlen : idle_recv_len m = rt_size_sub
      (rt_size_sub m.uart.dma.setting_recv_len m.uart.dma.rx_stream.NDTR)
      m.uart.dma.last_recv_index := rfl
  have htot : idle_recv_total_index m
      = rt_size_sub m.uart.dma.setting_recv_len m.uart.dma.rx_stream.NDTR := rfl
  rw [hlen, htot]
  by_cases hz : rt_size_sub (rt_size_sub m.uart.dma.setting_recv_len m.uart.dma.rx_stream.NDTR)
      m.uart.dma.last_recv_index = 0 <;>
  cases h1 : m.uart.uart_device.RXNE <;> cases h2 : m.uart.uart_device.RXNEIE <;>
  cases h3 : m.uart.uart_device.IDLE <;> cases h4 : m.uart.uart_device.IDLEIE <;>
  cases h5 : m.uart.uart_device.TC <;> cases h6 : m.uart.uart_device.TCIE <;>
  cases h7 : m.uart.uart_device.ORE <;>
  simp [uart_isr, uart_isr_rxne, uart_isr_idle, uart_isr_tc, uart_isr_ore, usart_getc,
    dma_uart_rx_idle_isr, rt_hw_interrupt_disable, DMA_GetCurrDataCounter_rx,
    get_last_recv_index, set_last_recv_index, rt_hw_interrupt_enable, hal_serial_isr, read_DR,
    USART_ClearITPendingBit_RXNE, USART_ClearITPendingBit_TC, set_uart_device,
    hz, h1, h2, h3, h4, h5, h6, h7]

/-- The transmission-complete flag after `uart_isr`: cleared when the cause was
pending, untouched otherwise. -/
theorem uart_isr_tc_flag (k : Consts) (m : Machine) :
    (uart_isr k m).uart.uart_device.TC
      = (m.uart.uart_device.TC && !m.uart.uart_device.TCIE) := by
  by_cases hz : rt_size_sub (rt_size_sub m.uart.dma.setting_recv_len m.uart.dma.rx_stream.NDTR)
      m.uart.dma.last_recv_index = 0 <;>
  cases h1 : m.uart.uart_device.RXNE <;> cases h2 : m.uart.uart_device.RXNEIE <;>
  cases h3 : m.uart.uart_device.IDLE <;> cases h4 : m.uart.uart_device.IDLEIE <;>
  cases h5 : m.uart.uart_device.TC <;> cases h6 : m.uart.uart_device.TCIE <;>
  cases h7 : m.uart.uart_device.ORE <;>
  simp [uart_isr, uart_isr_rxne, uart_isr_idle, uart_isr_tc, uart_isr_ore, usart_getc,
    dma_uart_rx_idle_isr, rt_hw_interrupt_disable, DMA_GetCurrDataCounter_rx,
    get_last_recv_index, set_last_recv_index, rt_hw_interrupt_enable, hal_serial_isr, read_DR,
    USART_ClearITPendingBit_RXNE, USART_ClearITPendingBit_TC, set_uart_device,
    hz, h1, h2, h3, h4, h5, h6, h7]

/-- The full-buffer path on a buffer that has just filled leaves the index at 0,
the flag clear and the remaining-count at the capacity. -/
theorem rx_done_after_fill (k : Consts) (m : Machine) :
    (dma_rx_done_isr k (dma_buffer_filled m)).uart.dma.last_recv_index = 0 ∧
    (dma_rx_done_isr k (dma_buffer_filled m)).uart.dma.rx_stream.NDTR
      = m.uart.dma.setting_recv_len ∧
    (dma_rx_done_isr k (dma_buffer_filled m)).uart.dma.setting_recv_len
      = m.uart.dma.setting_recv_len ∧
    (dma_rx_done_isr k (dma_buffer_filled m)).uart.dma.rx_stream.TCIF = false := by
  by_cases h : rt_size_sub m.uart.dma.setting_recv_len m.uart.dma.last_recv_index = 0 <;>
  simp [dma_rx_done_isr, dma_buffer_filled, rt_hw_interrupt_disable, get_last_recv_index,
    set_last_recv_index, rt_hw_interrupt_enable, hal_serial_isr, set_rx_stream, DMA_ClearFlag, h]

/-! ## Full buffer followed by idle line -/

/-- Claim C11: for every capacity and every prior last receive index, when the
buffer has just filled (completion flag set, remaining-count reloaded with the
capacity, which is the state the source is in after the byte that fills the
buffer) and `dma_rx_done_isr` has run, `last_recv_index` is 0 and the
remaining-count still shows the capacity; a run of `dma_uart_rx_idle_isr` right
then computes `recv_len = 0`, hands `hal_serial_isr` nothing and leaves
`last_recv_index` at 0. -/
theorem idle_after_full_emits_nothing (k : Consts) (m : Machine) :
    (dma_buffer_filled m).uart.dma.rx_stream.TCIF = true ∧
    (m.uart.dma.rx_stream.NDTR ≤ 1 →
      dma_write_byte k m = dma_rx_done_isr k (dma_buffer_filled m)) ∧
    (dma_rx_done_isr k (dma_buffer_filled m)).uart.dma.last_recv_index = 0 ∧
    (dma_rx_done_isr k (dma_buffer_filled m)).uart.dma.rx_stream.NDTR
      = m.uart.dma.setting_recv_len ∧
    idle_recv_len (dma_rx_done_isr k (dma_buffer_filled m)) = 0 ∧
    emitted (dma_rx_done_isr k (dma_buffer_filled m))
      (dma_uart_rx_idle_isr k (dma_rx_done_isr k (dma_buffer_filled m))) = [] ∧
    (dma_uart_rx_idle_isr k (dma_rx_done_isr k (dma_buffer_filled m))).uart.dma.last_recv_index
      = 0 := by
  obtain ⟨h1, h2, h3, _⟩ := rx_done_after_fill k m
  have hz : rt_size_sub m.uart.dma.setting_recv_len m.uart.dma.setting_recv_len = 0 := by
    unfold rt_size_sub WORD
    omega
  have hz0 : rt_size_sub 0 0 = 0 := by decide
  have htot : idle_recv_total_index (dma_rx_done_isr k (dma_buffer_filled m)) = 0 := by
    rw [idle_recv_total_index, h2, h3, hz]
  have hlen : idle_recv_len (dma_rx_done_isr k (dma_buffer_filled m)) = 0 := by
    rw [idle_recv_len, htot, h1, hz0]
  refine ⟨?_, ?_, h1, h2, hlen, ?_, ?_⟩
  · simp [dma_buffer_filled, set_rx_stream]
  · intro hn
    simp [dma_write_byte, dma_buffer_filled, hn]
  · unfold emitted
    rw [effects_of_append _ _ _ (rx_idle_trace k _)]
    simp [hlen, notifications]
  · rw [(rx_idle_state k _).1]
    exact htot

/-- Claim C11, witness: capacity 64, last receive index 14, one free slot left.
The byte that fills the buffer is served by the full-buffer path, which reports
the 50 bytes of the tail; the idle-line path that follows reports nothing and
leaves the index at 0. -/
theorem idle_after_full_emits_nothing_witness :
    dma_write_byte fmt (channel 64 1 14 false false)
      = dma_rx_done_isr fmt (dma_buffer_filled (channel 64 1 14 false false)) ∧
    emitted (dma_rx_done_isr fmt (dma_buffer_filled (channel 64 1 14 false false)))
      (dma_uart_rx_idle_isr fmt
        (dma_rx_done_isr fmt (dma_buffer_filled (channel 64 1 14 false false)))) = [] ∧
    (dma_uart_rx_idle_isr fmt
      (dma_rx_done_isr fmt (dma_buffer_filled (channel 64 1 14 false false)))
      ).uart.dma.last_recv_index = 0 :=
  have h := idle_after_full_emits_nothing fmt (channel 64 1 14 false false)
  ⟨h.2.1 (by decide), h.2.2.2.2.2.1, h.2.2.2.2.2.2⟩

/-! ## Interrupt dispatcher: the events of one invocation -/

/-- Claim C12: for every state of the four causes, the events one run of
`uart_isr` hands to `hal_serial_isr` are exactly `SERIAL_EVENT_RX_IND` when
byte-ready is pending (flag and interrupt enable set), followed by the event of
the idle-line path when idle-line is pending and the `recv_len` that path
computes is not 0; that is at most two events. The byte-ready event comes
before the clear of the byte-ready flag. A pending transmission-complete marker
has its flag cleared; neither that cause nor the overrun cause hands over an
event. -/
theorem uart_isr_notifications (k : Consts) (m : Machine) :
    emitted m (uart_isr k m) =
      (if m.uart.uart_device.RXNE && m.uart.uart_device.RXNEIE then
        [k.SERIAL_EVENT_RX_IND] else []) ++
      (if (m.uart.uart_device.IDLE && m.uart.uart_device.IDLEIE) = true ∧ idle_recv_len m ≠ 0 then
        [event_word k.SERIAL_EVENT_RX_DMADONE (idle_recv_len m)] else []) ∧
    (emitted m (uart_isr k m)).length ≤ 2 ∧
    ((m.uart.uart_device.RXNE && m.uart.uart_device.RXNEIE) = true →
      ∃ t, effects_of m (uart_isr k m)
        = Effect.hal_serial_isr k.SERIAL_EVENT_RX_IND :: Effect.clear_RXNE :: t) ∧
    (uart_isr k m).uart.uart_device.TC
      = (m.uart.uart_device.TC && !m.uart.uart_device.TCIE) ∧
    (∀ m1 : Machine, notifications (uart_isr_tc m1).trace = notifications m1.trace) ∧
    (∀ m1 : Machine, notifications (uart_isr_ore m1).trace = notifications m1.trace) := by
  have ht := effects_of_append _ _ _ (uart_isr_trace k m)
  have he : emitted m (uart_isr k m) =
      (if m.uart.uart_device.RXNE && m.uart.uart_device.RXNEIE then
        [k.SERIAL_EVENT_RX_IND] else []) ++
      (if (m.uart.uart_device.IDLE && m.uart.uart_device.IDLEIE) = true ∧ idle_recv_len m ≠ 0 then
        [event_word k.SERIAL_EVENT_RX_DMADONE (idle_recv_len m)] else []) := by
    unfold emitted
    rw [ht]
    by_cases hz : idle_recv_len m = 0 <;>
    cases h1 : m.uart.uart_device.RXNE <;> cases h2 : m.uart.uart_device.RXNEIE <;>
    cases h3 : m.uart.uart_device.IDLE <;> cases h4 : m.uart.uart_device.IDLEIE <;>
    cases h5 : m.uart.uart_device.TC <;> cases h6 : m.uart.uart_device.TCIE <;>
    cases h7 : m.uart.uart_device.ORE <;>
    simp [hz, notifications]
  refine ⟨he, ?_, ?_, uart_isr_tc_flag k m, ?_, ?_⟩
  · rw [he]
    split <;> split <;> simp
  · intro hrx
    rw [ht]
    simp only [hrx, if_true]
    exact ⟨_, rfl⟩
  · intro m1
    unfold uart_isr_tc
    split
    · simp [USART_ClearITPendingBit_TC, notifications_append, notifications]
    · rfl
  · intro m1
    unfold uart_isr_ore usart_getc
    split
    · split
      · simp [read_DR, notifications_append, notifications]
      · rfl
    · rfl

/-- Claim C12, witness: on `all_causes_channel` all four causes are pending and
14 bytes are new; the run hands over the byte-ready event and then the event of
the idle-line path, the first before the byte-ready flag is cleared, and leaves
the transmission-complete flag clear. -/
theorem uart_isr_notifications_witness :
    emitted all_causes_channel (uart_isr fmt all_causes_channel)
      = [fmt.SERIAL_EVENT_RX_IND, event_word fmt.SERIAL_EVENT_RX_DMADONE 14] ∧
    (∃ t, effects_of all_causes_channel (uart_isr fmt all_causes_channel)
      = Effect.hal_serial_isr fmt.SERIAL_EVENT_RX_IND :: Effect.clear_RXNE :: t) ∧
    (uart_isr fmt all_causes_channel).uart.uart_device.TC = false :=
  have h := uart_isr_notifications fmt all_causes_channel
  ⟨h.1, h.2.2.1 (by decide), h.2.2.2.1⟩

/-! ## Critical sections of the receive index -/

/-- Claim C13: the effects of one run of `dma_uart_rx_idle_isr` are, in order:
disable, read of the remaining-count, read and write of `last_recv_index`,
enable with the saved level, the event (when `recv_len` is not 0), read of the
data register; those of one run of `dma_rx_done_isr` with the flag set are
disable, read and write of `last_recv_index`, enable with the saved level, the
event (when `recv_len` is not 0), and none with the flag clear. Both sequences
pass `critical_section_ok`: the remaining-count and `last_recv_index` are
touched only between a disable and the enable that restores the level it
saved, `hal_serial_isr` is called only outside, every disable has its one
enable. The interrupt mask is on return what it was on entry, and a handler
entered with interrupts enabled hands over its event with interrupts enabled. -/
theorem critical_section_discipline (k : Consts) (m : Machine) :
    effects_of m (dma_uart_rx_idle_isr k m) =
      [Effect.rt_hw_interrupt_disable,
        Effect.DMA_GetCurrDataCounter m.uart.dma.rx_stream.NDTR,
        Effect.read_last_recv_index m.uart.dma.last_recv_index,
        Effect.write_last_recv_index (idle_recv_total_index m),
        Effect.rt_hw_interrupt_enable m.interrupts_disabled] ++
      (if idle_recv_len m ≠ 0 then
        [Effect.hal_serial_isr (event_word k.SERIAL_EVENT_RX_DMADONE (idle_recv_len m))]
      else []) ++
      [Effect.read_DR m.uart.uart_device.DR] ∧
    effects_of m (dma_rx_done_isr k m) =
      (if m.uart.dma.rx_stream.TCIF then
        [Effect.rt_hw_interrupt_disable,
          Effect.read_last_recv_index m.uart.dma.last_recv_index,
          Effect.write_last_recv_index 0,
          Effect.rt_hw_interrupt_enable m.interrupts_disabled] ++
        (if done_recv_len m ≠ 0 then
          [Effect.hal_serial_isr (event_word k.SERIAL_EVENT_RX_DMADONE (done_recv_len m))]
        else [])
      else []) ∧
    critical_section_ok m.interrupts_disabled none (effects_of m (dma_uart_rx_idle_isr k m))
      = true ∧
    critical_section_ok m.interrupts_disabled none (effects_of m (dma_rx_done_isr k m))
      = true ∧
    (dma_uart_rx_idle_isr k m).interrupts_disabled = m.interrupts_disabled ∧
    (dma_rx_done_isr k m).interrupts_disabled = m.interrupts_disabled ∧
    (m.interrupts_disabled = false →
      notified_unmasked false (effects_of m (dma_uart_rx_idle_isr k m)) = true ∧
      notified_unmasked false (effects_of m (dma_rx_done_isr k m)) = true) := by
  have hi := effects_of_append _ _ _ (rx_idle_trace k m)
  have hd := effects_of_append _ _ _ (rx_done_trace k m)
  refine ⟨hi, hd, ?_, ?_, (rx_idle_state k m).2, ?_, ?_⟩
  · rw [hi]
    by_cases h : idle_recv_len m = 0 <;> simp [h, critical_section_ok]
  · rw [hd]
    by_cases hf : m.uart.dma.rx_stream.TCIF = true <;>
      by_cases h : done_recv_len m = 0 <;> simp [hf, h, critical_section_ok]
  · by_cases hf : m.uart.dma.rx_stream.TCIF = true
    · by_cases h : rt_size_sub m.uart.dma.setting_recv_len m.uart.dma.last_recv_index = 0 <;>
      simp [dma_rx_done_isr, hf, rt_hw_interrupt_disable, get_last_recv_index,
        set_last_recv_index, rt_hw_interrupt_enable, hal_serial_isr, set_rx_stream,
        DMA_ClearFlag, h]
    · simp [dma_rx_done_isr, hf]
  · intro hm
    rw [hi, hd, hm]
    constructor
    · by_cases h : idle_recv_len m = 0 <;> simp [h, notified_unmasked]
    · by_cases hf : m.uart.dma.rx_stream.TCIF = true <;>
        by_cases h : done_recv_len m = 0 <;> simp [hf, h, notified_unmasked]

/-- Claim C13, witness: the two handlers entered with interrupts enabled on a
channel with 14 new bytes, respectively a set completion flag. -/
theorem critical_section_discipline_witness :
    critical_section_ok false none
      (effects_of (channel 64 50 0 true false)
        (dma_uart_rx_idle_isr fmt (channel 64 50 0 true false))) = true ∧
    critical_section_ok false none
      (effects_of (channel 64 50 0 true false)
        (dma_rx_done_isr fmt (channel 64 50 0 true false))) = true ∧
    notified_unmasked false
      (effects_of (channel 64 50 0 true false)
        (dma_uart_rx_idle_isr fmt (channel 64 50 0 true false))) = true ∧
    notified_unmasked false
      (effects_of (channel 64 50 0 true false)
        (dma_rx_done_isr fmt (channel 64 50 0 true false))) = true :=
  have h := critical_section_discipline fmt (channel 64 50 0 true false)
  ⟨h.2.2.1, h.2.2.2.1, (h.2.2.2.2.2.2 rfl).1, (h.2.2.2.2.2.2 rfl).2⟩

/-! ## Bound on the byte counts handed over -/

/-- Claim C14, amended: with 32-bit arithmetic, for every capacity `C < 2^24`,
last receive index `L ≤ C` and remaining-count `R ≤ C`, every event
`dma_rx_done_isr` hands over carries a count `n` with `1 ≤ n ≤ C`, and so does
every event `dma_uart_rx_idle_isr` hands over when `L ≤ C - R`. -/
theorem emitted_counts_within_capacity (k : Consts) (m : Machine) (C R L : Nat)
    (hcap : m.uart.dma.setting_recv_len = C) (hrem : m.uart.dma.rx_stream.NDTR = R)
    (hlast : m.uart.dma.last_recv_index = L)
    (hC : C < 16777216) (hL : L ≤ C) (hR : R ≤ C)
    (hcode : k.SERIAL_EVENT_RX_DMADONE < 256) :
    (∀ w ∈ emitted m (dma_rx_done_isr k m), 1 ≤ event_count w ∧ event_count w ≤ C) ∧
    (L ≤ C - R →
      ∀ w ∈ emitted m (dma_uart_rx_idle_isr k m), 1 ≤ event_count w ∧ event_count w ≤ C) := by
  have hW : C < WORD := by unfold WORD; omega
  constructor
  · intro w hw
    unfold emitted at hw
    rw [effects_of_append _ _ _ (rx_done_trace k m)] at hw
    have hlen : done_recv_len m = C - L := by
      rw [done_recv_len, hcap, hlast]; exact rt_size_sub_eq hL hW
    by_cases hf : m.uart.dma.rx_stream.TCIF = true
    · by_cases hz : C - L = 0
      · simp [hf, hlen, hz, notifications] at hw
      · simp [hf, hlen, hz, notifications] at hw
        rw [hw, event_count_word hcode (by omega)]
        omega
    · simp [hf, notifications] at hw
  · intro hLR w hw
    unfold emitted at hw
    rw [effects_of_append _ _ _ (rx_idle_trace k m)] at hw
    have hlen : idle_recv_len m = C - R - L := by
      rw [idle_recv_len, idle_recv_total_index, hcap, hrem, hlast, rt_size_sub_eq hR hW]
      exact rt_size_sub_eq hLR (by omega)
    by_cases hz : C - R - L = 0
    · simp [hlen, hz, notifications] at hw
    · simp [hlen, hz, notifications] at hw
      rw [hw, event_count_word hcode (by omega)]
      omega

/-- Claim C14, witness: capacity 64; the full-buffer path at last receive index
14 and the idle-line path at remaining-count 50, last receive index 0. -/
theorem emitted_counts_within_capacity_witness :
    (∀ w ∈ emitted (channel 64 64 14 true false)
        (dma_rx_done_isr fmt (channel 64 64 14 true false)),
      1 ≤ event_count w ∧ event_count w ≤ 64) ∧
    (∀ w ∈ emitted (channel 64 50 0 false false)
        (dma_uart_rx_idle_isr fmt (channel 64 50 0 false false)),
      1 ≤ event_count w ∧ event_count w ≤ 64) :=
  ⟨(emitted_counts_within_capacity fmt (channel 64 64 14 true false) 64 64 14 rfl rfl rfl
      (by decide) (by decide) (by decide) (by decide)).1,
   (emitted_counts_within_capacity fmt (channel 64 50 0 false false) 64 50 0 rfl rfl rfl
      (by decide) (by decide) (by decide) (by decide)).2 (by decide)⟩

/-- Claim C14, counterexample: capacity 64, last receive index 14,
remaining-count 60 (both within the capacity; the write pointer has wrapped and
the full-buffer event has not been handled yet). The idle-line path computes
`recv_len = 4 - 14` modulo `2^32`, which is 4294967286, and hands over an event
whose count field is 16777206, more than the capacity. And at capacity `2^24`,
last receive index 0, the full-buffer path hands over an event whose count
field is 0, less than 1. -/
theorem emitted_count_exceeds_capacity :
    (channel 64 60 14 false false).uart.dma.last_recv_index
      ≤ (channel 64 60 14 false false).uart.dma.setting_recv_len ∧
    (channel 64 60 14 false false).uart.dma.rx_stream.NDTR
      ≤ (channel 64 60 14 false false).uart.dma.setting_recv_len ∧
    idle_recv_len (channel 64 60 14 false false) = 4294967286 ∧
    (emitted (channel 64 60 14 false false)
      (dma_uart_rx_idle_isr fmt (channel 64 60 14 false false))).map event_count = [16777206] ∧
    ¬ (16777206 ≤ (channel 64 60 14 false false).uart.dma.setting_recv_len) ∧
    (channel 16777216 16777216 0 true false).uart.dma.last_recv_index
      ≤ (channel 16777216 16777216 0 true false).uart.dma.setting_recv_len ∧
    (emitted (channel 16777216 16777216 0 true false)
      (dma_rx_done_isr fmt (channel 16777216 16777216 0 true false))).map event_count = [0] := by
  decide

end Usart
